import Mathlib

/-!
Verification development for the alita per-domain adaptive HTTP fetch service.

The definitions below are a shallow embedding of the Python sources:
cookie normalization and merging (src/alita/cookies.py, src/alita/models.py),
header sanitization, the plain/browser pipelines and navigation capture
(src/alita/service.py), the request dispatch (src/alita/api.py), the CSS
selector evaluation (src/alita/selectors.py) and the browser manager
lifecycle (src/alita/browser_pool.py).  External capabilities (the HTTP
client, the CSS selector engine, the debug-protocol transport, URL parsing)
are modelled as explicit environment parameters.
-/

namespace Alita

/-- Strip every leading dot from a string, as the Python lstrip of a dot does. -/
def stripLeadingDots (s : String) : String :=
  String.mk (s.toList.dropWhile (fun c => c = '.'))

/-- Python truthy-or for optional strings: both absence and the empty string
fall back to the default. -/
def strOrDefault (s : Option String) (d : String) : String :=
  match s with
  | none => d
  | some v => if v = "" then d else v

/-- Python str.lower, mapping the character lowering over the characters. -/
def pyLower (s : String) : String := String.mk (s.toList.map Char.toLower)

/-- Equality of Except results is decidable when both components are. -/
instance exceptDecEq {ε α : Type} [DecidableEq ε] [DecidableEq α] :
    DecidableEq (Except ε α) := fun a b =>
  match a, b with
  | Except.ok x, Except.ok y =>
    match decEq x y with
    | isTrue h => isTrue (by rw [h])
    | isFalse h => isFalse (by intro hh; cases hh; exact h rfl)
  | Except.error x, Except.error y =>
    match decEq x y with
    | isTrue h => isTrue (by rw [h])
    | isFalse h => isFalse (by intro hh; cases hh; exact h rfl)
  | Except.ok _, Except.error _ => isFalse (by intro hh; cases hh)
  | Except.error _, Except.ok _ => isFalse (by intro hh; cases hh)

/-- CookieState from src/alita/models.py: the internal cookie representation. -/
structure CookieState where
  name : String
  value : String
  domain : Option String := none
  path : Option String := none
  secure : Option Bool := none
  http_only : Option Bool := none
  expires : Option Int := none
deriving Repr, DecidableEq

/-- The identity triple of a cookie. -/
abbrev CookieKey := String × String × String

/-- CookieState.key from src/alita/models.py: name, domain with leading dots
stripped (absent treated as empty), path defaulted to the root path. -/
def CookieState.key (c : CookieState) : CookieKey :=
  (c.name, stripLeadingDots (c.domain.getD ""), strOrDefault c.path "/")

/-- Assignment into an insertion-ordered mapping, as a Python dict assignment:
an existing key keeps its position and receives the new value, a new key is
appended at the end. -/
def updAssoc {κ α : Type} [DecidableEq κ] (m : List (κ × α)) (k : κ) (v : α) :
    List (κ × α) :=
  match m with
  | [] => [(k, v)]
  | p :: rest => if p.1 = k then (k, v) :: rest else p :: updAssoc rest k v

/-- Lookup in an insertion-ordered mapping. -/
def lookupKey {κ α : Type} [DecidableEq κ] (m : List (κ × α)) (k : κ) : Option α :=
  match m with
  | [] => none
  | p :: rest => if p.1 = k then some p.2 else lookupKey rest k

/-- One step of building the cookie dictionary keyed by the identity triple. -/
def dictInsert (m : List (CookieKey × CookieState)) (c : CookieState) :
    List (CookieKey × CookieState) :=
  updAssoc m c.key c

/-- The dict comprehension keying each cookie by its identity triple. -/
def cookieDict (cookies : List CookieState) : List (CookieKey × CookieState) :=
  cookies.foldl dictInsert []

/-- merge_cookies from src/alita/cookies.py: build the keyed dict from the
existing cookies, assign every update over it, return the values in order. -/
def merge_cookies (existing updates : List CookieState) : List CookieState :=
  (updates.foldl dictInsert (cookieDict existing)).map Prod.snd

/-- First-insertion order of cookie keys, continuing from an ambient key list. -/
def firstInsertKeysFrom (ks : List CookieKey) (cookies : List CookieState) :
    List CookieKey :=
  cookies.foldl (fun acc c => if c.key ∈ acc then acc else acc ++ [c.key]) ks

/-- First-insertion order of the identity keys of a cookie list. -/
def firstInsertKeys (cookies : List CookieState) : List CookieKey :=
  firstInsertKeysFrom [] cookies

/-- The last cookie of the list carrying a given identity key, if any. -/
def lastWriter : List CookieState → CookieKey → Option CookieState
  | [], _ => none
  | c :: rest, k =>
    match lastWriter rest k with
    | some d => some d
    | none => if c.key = k then some c else none

/-- Every pair of the keyed dictionary maps the key of its own cookie. -/
def KeyedPairs (m : List (CookieKey × CookieState)) : Prop :=
  ∀ p ∈ m, p.1 = p.2.key

/-- HOP_BY_HOP_HEADERS from src/alita/service.py. -/
def HOP_BY_HOP_HEADERS : List String :=
  ["host", "connection", "proxy-connection", "content-length", "accept-encoding",
   "upgrade", "upgrade-insecure-requests", "te", "trailers", "transfer-encoding"]

/-- sanitize_headers from src/alita/service.py: iterate the header mapping in
order, skip entries whose lowercased name is hop-by-hop, insert the rest into a
fresh ordered mapping. -/
def sanitize_headers (headers : List (String × String)) : List (String × String) :=
  headers.foldl
    (fun sanitized kv =>
      if pyLower kv.1 ∈ HOP_BY_HOP_HEADERS then sanitized
      else updAssoc sanitized kv.1 kv.2) []

/-- Failure surfaced by a flow: an HTTPException with status and detail, or an
uncaught internal error (served as a 500 by the framework). -/
inductive FlowErr
  | http (status : Nat) (detail : String)
  | internal (msg : String)
deriving Repr, DecidableEq

/-- A single apostrophe character, used inside selector literals. -/
def apostrophe : String := String.singleton (Char.ofNat 39)

/-- CLOUDFLARE_CHALLENGE_SELECTORS from src/alita/selectors.py. -/
def CLOUDFLARE_CHALLENGE_SELECTORS : List String :=
  ["#challenge-running", "#challenge-body-text", "#challenge-stage",
   "#cf-spinner-please-wait", ".cf-browser-verification", "form#challenge-form",
   "div[data-translate=" ++ apostrophe ++ "checking_browser" ++ apostrophe ++ "]"]

/-- CLOUDFLARE_TEXT_MARKERS from src/alita/selectors.py. -/
def CLOUDFLARE_TEXT_MARKERS : List String :=
  ["checking if the site connection is secure",
   "checking your browser before accessing",
   "enable javascript and cookies",
   "just a moment"]

/-- Whether one character sequence occurs inside another, by scanning the
suffixes; the containment test of Python substring search. -/
def containsSeq (needle : List Char) : List Char → Bool
  | [] => needle.isEmpty
  | c :: rest => needle.isPrefixOf (c :: rest) || containsSeq needle rest

/-- The CSS selector engine and text extraction of the HTML parser, an
external capability: syntactic validity of a selector, whether a selector
matches a document, and the text content of a document. -/
structure SelectorEnv where
  valid : String → Bool
  selMatches : String → String → Bool
  textOf : String → String

/-- selector_exists from src/alita/selectors.py: querying with a syntactically
invalid selector raises a 400 HTTPException naming the offending field. -/
def selector_exists (env : SelectorEnv) (html selector label : String) :
    Except FlowErr Bool :=
  if env.valid selector then Except.ok (env.selMatches html selector)
  else Except.error (FlowErr.http 400
    ("Invalid CSS selector for " ++ label ++ ": " ++ selector))

/-- The first selector of the list that matches the document, scanning in
order, propagating a validity error from any selector tried. -/
def firstMatchingSelector (env : SelectorEnv) (html label : String) :
    List String → Except FlowErr (Option String)
  | [] => Except.ok none
  | s :: rest =>
    match selector_exists env html s label with
    | Except.error e => Except.error e
    | Except.ok true => Except.ok (some s)
    | Except.ok false => firstMatchingSelector env html label rest

/-- detect_cloudflare_challenge from src/alita/selectors.py. -/
def detect_cloudflare_challenge (env : SelectorEnv) (html : String) :
    Except FlowErr (Option String) :=
  match firstMatchingSelector env html "cloudflare_challenge"
      CLOUDFLARE_CHALLENGE_SELECTORS with
  | Except.error e => Except.error e
  | Except.ok (some s) => Except.ok (some s)
  | Except.ok none =>
    let text := pyLower (env.textOf html)
    Except.ok (CLOUDFLARE_TEXT_MARKERS.find?
      (fun m => containsSeq m.toList text.toList))

/-- evaluate_plain_html from src/alita/selectors.py: wait presence, first
blocking selector, and the Cloudflare marker, a THREE element tuple. -/
def evaluate_plain_html (env : SelectorEnv) (html : String)
    (wait_selector : Option String) (browser_on : List String) :
    Except FlowErr (Bool × Option String × Option String) :=
  let waitRes : Except FlowErr Bool :=
    match wait_selector with
    | none => Except.ok true
    | some s =>
      if s = "" then Except.ok true
      else selector_exists env html s "wait_for_element"
  match waitRes with
  | Except.error e => Except.error e
  | Except.ok wait_present =>
    match firstMatchingSelector env html "browser_on_elements" browser_on with
    | Except.error e => Except.error e
    | Except.ok block_selector =>
      match detect_cloudflare_challenge env html with
      | Except.error e => Except.error e
      | Except.ok marker => Except.ok (wait_present, block_selector, marker)

/-- A dynamically-typed Python value, for modelling tuple unpacking. -/
inductive PyVal
  | pyBool (b : Bool)
  | pyOptStr (s : Option String)
deriving Repr, DecidableEq

/-- The Python tuple built by the return statement of evaluate_plain_html. -/
def tripleVals (t : Bool × Option String × Option String) : List PyVal :=
  [PyVal.pyBool t.1, PyVal.pyOptStr t.2.1, PyVal.pyOptStr t.2.2]

/-- Python unpacking of a tuple into two targets: raises ValueError unless the
tuple has exactly two items, as the assignment in plain_flow does. -/
def unpackPair (vals : List PyVal) : Except FlowErr (PyVal × PyVal) :=
  match vals with
  | [x, y] => Except.ok (x, y)
  | _ => Except.error (FlowErr.internal "ValueError: too many values to unpack (expected 2)")

/-- Settings from src/alita/config.py with its documented defaults. -/
structure Settings where
  browser_idle_shutdown_seconds : Rat := 10
  ready_state_timeout : Rat := 20
  ready_state_target : String := "complete"
  http_timeout : Rat := 20
deriving Repr, DecidableEq

/-- FetchRequest from src/alita/models.py, after pydantic validation. -/
structure FetchRequest where
  url : String
  wait_for_element : Option String := none
  browser_on_elements : List String := []
  wait_timeout : Rat := 10
deriving Repr, DecidableEq

/-- SessionState from src/alita/models.py.  The lock is not modelled: the
dispatcher holds it for the entire fetch, serializing a domain. -/
structure SessionState where
  cookies : List CookieState := []
  initialized : Bool := false
  request_headers : Option (List (String × String)) := none
deriving Repr, DecidableEq

/-- PlainSnapshot from src/alita/models.py. -/
structure PlainSnapshot where
  status_code : Nat
  headers : List (String × String)
  body : String
  request_headers : List (String × String)
deriving Repr, DecidableEq

/-- BrowserResponseInfo from src/alita/models.py. -/
structure BrowserResponseInfo where
  status_code : Nat
  headers : List (String × String)
  request_headers : List (String × String)
deriving Repr, DecidableEq

/-- PageResult from src/alita/models.py. -/
structure PageResult where
  status_code : Nat
  headers : List (String × String)
  body : String
  used_browser : Bool
  request_headers : List (String × String)
  cookies : List CookieState
deriving Repr, DecidableEq

/-- A debug-protocol cookie record (cdp.network.Cookie). -/
structure CdpCookie where
  name : String
  value : String
  domain : String
  path : String
  secure : Bool
  http_only : Bool
  expires : Int
deriving Repr, DecidableEq

/-- cookie_state_from_cdp from src/alita/cookies.py. -/
def cookie_state_from_cdp (c : CdpCookie) : CookieState :=
  { name := c.name, value := c.value, domain := some c.domain, path := some c.path,
    secure := some c.secure, http_only := some c.http_only, expires := some c.expires }

/-- cookie_matches from src/alita/cookies.py, with the hostname already
extracted from the URL by the (external) URL parser. -/
def cookie_matches (hostname : Option String) (c : CdpCookie) : Bool :=
  let host := hostname.getD ""
  if host = "" then true
  else
    let domain := stripLeadingDots c.domain
    decide (domain = "") || decide (host = domain) || host.endsWith ("." ++ domain)

/-- filter_cookie_states from src/alita/cookies.py: a cookie with an absent or
empty domain is treated as matching the request host. -/
def filter_cookie_states (hostname : Option String) (cookies : List CookieState) :
    List CookieState :=
  let host := hostname.getD ""
  if host = "" then cookies
  else cookies.filter (fun c =>
    let domain := stripLeadingDots (strOrDefault c.domain host)
    decide (domain = "") || decide (host = domain) || host.endsWith ("." ++ domain))

/-- An HTTP-client cookie-jar entry; http_only lives in the auxiliary
attribute bag. -/
structure JarCookie where
  name : String
  value : String
  domain : Option String := none
  path : Option String := none
  secure : Option Bool := none
  expires : Option Int := none
  rest_http_only : Option Bool := none
deriving Repr, DecidableEq

/-- cookie_state_from_cookiejar from src/alita/cookies.py. -/
def cookie_state_from_cookiejar (c : JarCookie) : CookieState :=
  { name := c.name, value := c.value, domain := c.domain, path := c.path,
    secure := c.secure, http_only := c.rest_http_only, expires := c.expires }

/-- A cookie as inserted into the httpx request jar. -/
structure RequestCookie where
  name : String
  value : String
  domain : Option String
  path : String
deriving Repr, DecidableEq

/-- cookies_for_request from src/alita/cookies.py: path defaults to the root
path on insertion. -/
def cookies_for_request (cookies : List CookieState) : List RequestCookie :=
  cookies.map (fun c =>
    { name := c.name, value := c.value, domain := c.domain,
      path := strOrDefault c.path "/" })

/-- aggregate_headers from src/alita/service.py: lower-case the names, keep
order and duplicates. -/
def aggregate_headers (headers : List (String × String)) : List (String × String) :=
  headers.map (fun kv => (pyLower kv.1, kv.2))

/-- A Network-domain event observed by the capture handlers. -/
inductive NetEvent
  | requestWillBeSent (request_id : Nat) (is_document : Bool)
      (request_headers : List (String × String))
  | responseReceived (request_id : Nat) (is_document : Bool) (frame_id : Nat)
      (status : Nat) (response_headers : List (String × String))
deriving Repr, DecidableEq

/-- One recorded Document response: frame id, status, response headers, and
the request headers popped from the pending-request mapping (empty when the
mapping held no entry for the request id). -/
structure DocEvent where
  frame_id : Nat
  status : Nat
  headers : List (String × String)
  request_headers : List (String × String)
deriving Repr, DecidableEq

/-- The two event handlers of capture_browser_navigation in
src/alita/service.py, folded over the observed event stream. -/
def captureStep :
    List (Nat × List (String × String)) × List DocEvent → NetEvent →
      List (Nat × List (String × String)) × List DocEvent
  | (reqMap, docs), NetEvent.requestWillBeSent rid isDoc hdrs =>
    if isDoc then (updAssoc reqMap rid hdrs, docs) else (reqMap, docs)
  | (reqMap, docs), NetEvent.responseReceived rid isDoc fid status hdrs =>
    if isDoc then
      (reqMap.filter (fun p => decide (p.1 ≠ rid)),
       docs ++ [⟨fid, status, hdrs, (lookupKey reqMap rid).getD []⟩])
    else (reqMap, docs)

/-- capture_browser_navigation from src/alita/service.py, as a function of the
resolved top-level frame id and of the Document events observed before the
page-ready signal: scan the recorded Document responses in reverse for the
top-level frame, fall back to the last response overall; none models the case
of no Document response at all, in which the coroutine never completes. -/
def capture_browser_navigation (frame_id : Nat) (events : List NetEvent) :
    Option BrowserResponseInfo :=
  let docs := (events.foldl captureStep ([], [])).2
  match docs.reverse.find? (fun e => e.frame_id == frame_id) with
  | some e => some ⟨e.status, e.headers, e.request_headers⟩
  | none =>
    match docs.getLast? with
    | some e => some ⟨e.status, e.headers, e.request_headers⟩
    | none => none

/-- One wait performed by await_rendered_html, with the timeout it was given. -/
inductive WaitStep
  | readyState (target : String) (timeout : Rat)
  | selectorWait (selector : Option String) (timeout : Rat)
deriving Repr, DecidableEq

/-- The browser-tab capability of one fetch: the outcome of acquiring a tab,
the navigate result (frame id and error text, empty for success), the outcome
of snapshot hydration, whether each wait completes within its timeout, the
rendered content, the observed network events, and the browser cookie jar. -/
structure BrowserEnv where
  acquire_tab : Except FlowErr Unit
  navigate : Except FlowErr (Nat × String)
  hydrate : Except FlowErr Unit
  ready_in_time : Rat → Bool
  selector_in_time : Option String → Rat → Bool
  page_content : String
  events : List NetEvent
  browser_cookies : List CdpCookie

/-- await_rendered_html from src/alita/service.py: wait for the ready state
with timeout max(wait_timeout, ready_state_timeout), then wait for the given
selector with timeout wait_timeout; each expiry is a 504.  The returned list
records the waits actually performed. -/
def await_rendered_html (tab : BrowserEnv) (selector : Option String)
    (payload : FetchRequest) (settings : Settings) :
    List WaitStep × Except FlowErr String :=
  let ready_timeout := max payload.wait_timeout settings.ready_state_timeout
  let step1 := WaitStep.readyState settings.ready_state_target ready_timeout
  if tab.ready_in_time ready_timeout then
    let step2 := WaitStep.selectorWait selector payload.wait_timeout
    if tab.selector_in_time selector payload.wait_timeout then
      ([step1, step2], Except.ok tab.page_content)
    else
      ([step1, step2],
       Except.error (FlowErr.http 504 "Timed out waiting for wait_for_element"))
  else
    ([step1], Except.error (FlowErr.http 504 "Timed out waiting for ready state"))

/-- A plain HTTP response as returned by the httpx client. -/
structure PlainResponse where
  status_code : Nat
  headers : List (String × String)
  text : String
  content : String
  jar : List JarCookie
deriving Repr, DecidableEq

/-- The external world of one fetch: the selector engine, the browser tab
capability, the HTTP client (none models an httpx.HTTPError), and the URL
parser. -/
structure Env where
  sel : SelectorEnv
  tab : BrowserEnv
  http_get : String → List (String × String) → List RequestCookie → Option PlainResponse
  hostname_of : String → Option String
  netloc_of : String → String

/-- domain_from_url from src/alita/models.py. -/
def domain_from_url (env : Env) (url : String) : String :=
  let host := (env.hostname_of url).getD ""
  let host2 := if host = "" then env.netloc_of url else host
  pyLower host2

/-- BrowserManager.export_cookies as called at the end of browser_flow: all
browser cookies that match the URL, converted to CookieState. -/
def export_cookies (env : Env) (url : String) : List CookieState :=
  (env.tab.browser_cookies.filter (cookie_matches (env.hostname_of url))).map
    cookie_state_from_cdp

/-- browser_flow from src/alita/service.py.  The session state is only read;
all session mutation happens in the endpoint after a successful return. -/
def browser_flow (env : Env) (payload : FetchRequest) (state : SessionState)
    (settings : Settings) (snapshot : Option PlainSnapshot) :
    Except FlowErr PageResult :=
  let url := payload.url
  match env.tab.acquire_tab with
  | Except.error e => Except.error e
  | Except.ok _ =>
    match snapshot with
    | none =>
      match env.tab.navigate with
      | Except.error e => Except.error e
      | Except.ok (frame_id, error_text) =>
        if error_text ≠ "" then
          Except.error (FlowErr.http 502
            ("Navigation failed for " ++ url ++ ": " ++ error_text))
        else
          match (await_rendered_html env.tab payload.wait_for_element payload settings).2 with
          | Except.error e => Except.error e
          | Except.ok html =>
            match capture_browser_navigation frame_id env.tab.events with
            | none => Except.error (FlowErr.internal "navigation capture pending")
            | some info =>
              Except.ok
                { status_code := info.status_code, headers := info.headers,
                  body := html, used_browser := true,
                  request_headers := info.request_headers,
                  cookies := filter_cookie_states (env.hostname_of url)
                    (export_cookies env url) }
    | some snap =>
      match env.tab.hydrate with
      | Except.error e => Except.error e
      | Except.ok _ =>
        match (await_rendered_html env.tab payload.wait_for_element payload settings).2 with
        | Except.error e => Except.error e
        | Except.ok html =>
          let effective :=
            match state.request_headers with
            | none => snap.request_headers
            | some h => if h = [] then snap.request_headers else h
          Except.ok
            { status_code := snap.status_code, headers := snap.headers,
              body := html, used_browser := true, request_headers := effective,
              cookies := filter_cookie_states (env.hostname_of url)
                (export_cookies env url) }

/-- plain_flow from src/alita/service.py, returning the result together with
the session state as left behind by the flow (the fallback branch writes
state.cookies before delegating to the browser). -/
def plain_flow (env : Env) (payload : FetchRequest) (state : SessionState)
    (settings : Settings) : Except FlowErr PageResult × SessionState :=
  let url := payload.url
  match state.request_headers with
  | none => (browser_flow env payload state settings none, state)
  | some stored =>
    if stored = [] then (browser_flow env payload state settings none, state)
    else
      let headers := sanitize_headers stored
      let jar := cookies_for_request state.cookies
      match env.http_get url headers jar with
      | none => (browser_flow env payload state settings none, state)
      | some response =>
        let header_list := response.headers
        let cookie_updates := response.jar.map cookie_state_from_cookiejar
        let merged_cookies := merge_cookies state.cookies cookie_updates
        let filtered_cookies :=
          filter_cookie_states (env.hostname_of url) merged_cookies
        match evaluate_plain_html env.sel response.text payload.wait_for_element
            payload.browser_on_elements with
        | Except.error e => (Except.error e, state)
        | Except.ok triple =>
          match unpackPair (tripleVals triple) with
          | Except.error e => (Except.error e, state)
          | Except.ok (PyVal.pyBool wait_present, PyVal.pyOptStr blocking_selector) =>
            let blockTruthy :=
              match blocking_selector with
              | none => false
              | some s => decide (s ≠ "")
            if (!wait_present) || blockTruthy then
              let snap : PlainSnapshot :=
                { status_code := response.status_code, headers := header_list,
                  body := response.content, request_headers := headers }
              let state2 := { state with cookies := filtered_cookies }
              (browser_flow env payload state2 settings (some snap), state2)
            else
              (Except.ok
                 { status_code := response.status_code, headers := header_list,
                   body := response.text, used_browser := false,
                   request_headers := stored, cookies := filtered_cookies }, state)
          | Except.ok _ =>
            (Except.error (FlowErr.internal "TypeError: unexpected tuple contents"),
             state)

/-- The JSON body assembled by the endpoint on success. -/
structure FetchResponse where
  status_code : Nat
  used_browser : Bool
  headers : List (String × String)
  body : String
deriving Repr, DecidableEq

/-- fetch_endpoint from src/alita/api.py: dispatch on state.initialized, set
it after a successful first browser render, write back cookies, and overwrite
the stored request headers whenever the result used the browser. -/
def fetch_endpoint (env : Env) (payload : FetchRequest) (state : SessionState)
    (settings : Settings) : Except FlowErr FetchResponse × SessionState :=
  if state.initialized = false then
    match browser_flow env payload state settings none with
    | Except.error e => (Except.error e, state)
    | Except.ok result =>
      (Except.ok
         { status_code := result.status_code,
           used_browser := result.used_browser,
           headers := aggregate_headers result.headers, body := result.body },
       { state with
          initialized := true,
          cookies := result.cookies,
          request_headers :=
            if result.used_browser then some result.request_headers
            else state.request_headers })
  else
    match plain_flow env payload state settings with
    | (Except.error e, st) => (Except.error e, st)
    | (Except.ok result, st) =>
      (Except.ok
         { status_code := result.status_code,
           used_browser := result.used_browser,
           headers := aggregate_headers result.headers, body := result.body },
       { st with
          cookies := result.cookies,
          request_headers :=
            if result.used_browser then some result.request_headers
            else st.request_headers })

/-- Where an acquire attempt fails, if anywhere: at browser start, at tab
open, at debug-domain enable, or at cookie install. -/
inductive AcquireFail
  | start
  | openTab
  | enableDomains
  | installCookies
deriving Repr, DecidableEq

/-- An event in the life of a BrowserManager: an acquire attempt with its
failure point (none for success), a release, or the firing of the pending
idle-shutdown task.  Times are readings of the monotonic clock. -/
inductive MgrEvent
  | acquire (t : Rat) (fail : Option AcquireFail)
  | release (t : Rat)
  | idleFire (t : Rat)
deriving Repr, DecidableEq

/-- The time at which an event occurs. -/
def eventTime : MgrEvent → Rat
  | MgrEvent.acquire t _ => t
  | MgrEvent.release t => t
  | MgrEvent.idleFire t => t

/-- Whether an event is an acquire attempt. -/
def isAcquireEvent : MgrEvent → Bool
  | MgrEvent.acquire _ _ => true
  | _ => false

/-- BrowserManager state from src/alita/browser_pool.py: the browser handle,
the tab counter, the last-used timestamp, and the sleep-start time of the
pending idle-shutdown task (none when no live task is pending). -/
structure MgrState where
  browser : Bool := false
  active_tabs : Int := 0
  last_used : Rat := 0
  pending : Option Rat := none
deriving Repr, DecidableEq

/-- The state of a freshly constructed BrowserManager. -/
def mgrInit : MgrState := {}

/-- One step of the BrowserManager of src/alita/browser_pool.py.
An acquire failing at browser start raises before the counter increment;
a failure after the increment (tab open, domain enable, cookie install)
leaves the increment behind with no release, because the scoped tab() helper
only releases once _acquire_tab has returned.  A release decrements with a
floor of zero, stamps last_used, and schedules the idle task when no tabs
remain and no task is pending.  The idle firing re-checks under the lock that
the browser is present, no tab is active and the idle time has elapsed since
last_used before stopping the browser; in every case the task ends. -/
def mgrStep (settings : Settings) (s : MgrState) : MgrEvent → MgrState
  | MgrEvent.acquire t fail =>
    if fail = some AcquireFail.start then s
    else
      let afterStart :=
        if s.browser then s else { s with browser := true, last_used := t }
      { afterStart with active_tabs := afterStart.active_tabs + 1 }
  | MgrEvent.release t =>
    let s2 := { s with active_tabs := max 0 (s.active_tabs - 1), last_used := t }
    if s2.active_tabs = 0 ∧ s2.pending = none then { s2 with pending := some t }
    else s2
  | MgrEvent.idleFire t =>
    if s.browser = true ∧ s.active_tabs = 0 ∧
        t - s.last_used ≥ settings.browser_idle_shutdown_seconds then
      { s with browser := false, pending := none }
    else { s with pending := none }

/-- A BrowserManager run over a list of events. -/
def runMgr (settings : Settings) (s : MgrState) (events : List MgrEvent) : MgrState :=
  events.foldl (mgrStep settings) s

/-- Number of acquire attempts that performed the counter increment: every
attempt that did not fail at browser start. -/
def incAcquires : List MgrEvent → Int
  | [] => 0
  | MgrEvent.acquire _ fail :: rest =>
    (if fail = some AcquireFail.start then 0 else 1) + incAcquires rest
  | _ :: rest => incAcquires rest

/-- Number of fully successful acquires (a tab was handed out). -/
def succAcquires : List MgrEvent → Int
  | [] => 0
  | MgrEvent.acquire _ fail :: rest =>
    (if fail = none then 1 else 0) + succAcquires rest
  | _ :: rest => succAcquires rest

/-- Number of releases performed. -/
def releaseCount : List MgrEvent → Int
  | [] => 0
  | MgrEvent.release _ :: rest => 1 + releaseCount rest
  | _ :: rest => releaseCount rest

/-- Scoped-use discipline of manager.tab(): a release happens only for a tab
actually handed out, so in no prefix do releases outnumber successful
acquires. -/
def ScopedReleases (events : List MgrEvent) : Prop :=
  ∀ i : Nat, releaseCount (events.take i) ≤ succAcquires (events.take i)

/-- Validity of a run: an acquire can only fail at browser start while the
browser is absent (a live browser is not started again), and the idle task
fires exactly browser_idle_shutdown_seconds after the release that scheduled
it. -/
def wfRunB (settings : Settings) : MgrState → List MgrEvent → Bool
  | _, [] => true
  | s, e :: rest =>
    (match e with
     | MgrEvent.acquire _ fail =>
       if fail = some AcquireFail.start then decide (s.browser = false) else true
     | MgrEvent.release _ => true
     | MgrEvent.idleFire t =>
       decide (s.pending = some (t - settings.browser_idle_shutdown_seconds))) &&
    wfRunB settings (mgrStep settings s e) rest

/-- The disjunction that makes the idle post-check fail: the manager was
touched after time t0 (last_used moved past it), or a tab is active, or there
is no browser to stop. -/
def StopBlocked (s : MgrState) (t0 : Rat) : Prop :=
  t0 < s.last_used ∨ 1 ≤ s.active_tabs ∨ s.browser = false

/-- A selector engine for concrete runs: every selector except the literal
string "##bad" is syntactically valid, a selector matches a document iff it
occurs in it as a substring, and text extraction returns the empty string. -/
def selEnvOk : SelectorEnv :=
  { valid := fun s => decide (s ≠ "##bad"),
    selMatches := fun html s => containsSeq s.toList html.toList,
    textOf := fun _ => "" }

/-- A healthy tab: acquisition, navigation and hydration succeed, both waits
complete in time, and the navigation produced one Document request/response
pair on the top-level frame. -/
def tabEnvOk : BrowserEnv :=
  { acquire_tab := Except.ok (),
    navigate := Except.ok (1, ""),
    hydrate := Except.ok (),
    ready_in_time := fun _ => true,
    selector_in_time := fun _ _ => true,
    page_content := "<html><body>.ok</body></html>",
    events := [NetEvent.requestWillBeSent 7 true [("user-agent", "UA/1")],
               NetEvent.responseReceived 7 true 1 200 [("server", "nginx")]],
    browser_cookies := [] }

/-- The plain response served by the healthy environment. -/
def respOk : PlainResponse :=
  { status_code := 200, headers := [("content-type", "text/html")],
    text := "<html><body>.ok</body></html>",
    content := "<html><body>.ok</body></html>", jar := [] }

/-- A healthy world: every GET succeeds with respOk, and URLs parse to the
host example.com. -/
def envOk : Env :=
  { sel := selEnvOk, tab := tabEnvOk,
    http_get := fun _ _ _ => some respOk,
    hostname_of := fun _ => some "example.com",
    netloc_of := fun _ => "example.com" }

/-- A world in which acquiring a browser tab fails. -/
def envFail : Env :=
  { envOk with
     tab := { tabEnvOk with
               acquire_tab := Except.error (FlowErr.internal "browser start failed") } }

/-- A world whose navigation events carry a Document response with no
matching Document request. -/
def envNoReq : Env :=
  { envOk with
     tab := { tabEnvOk with
               events := [NetEvent.responseReceived 7 true 1 200 [("server", "nginx")]] } }

/-- A tab whose ready-state wait never completes. -/
def tabReadyTimeout : BrowserEnv :=
  { tabEnvOk with ready_in_time := fun _ => false }

/-- A tab whose ready-state wait completes but whose selector wait expires. -/
def tabSelectorTimeout : BrowserEnv :=
  { tabEnvOk with selector_in_time := fun _ _ => false }

/-- The default settings. -/
def setD : Settings := {}

/-- A fetch for http://example.com/ waiting for the selector .ok. -/
def req1 : FetchRequest :=
  { url := "http://example.com/", wait_for_element := some ".ok" }

/-- A fetch with no wait selector at all. -/
def reqNoWait : FetchRequest := { url := "http://example.com/" }

/-- A fetch carrying the syntactically invalid wait selector ##bad. -/
def reqBad : FetchRequest :=
  { url := "http://example.com/", wait_for_element := some "##bad" }

/-- A fetch whose block list carries the syntactically invalid selector. -/
def reqBadBlock : FetchRequest :=
  { url := "http://example.com/", browser_on_elements := ["##bad"] }

/-- A warm session: initialized, with learned request headers. -/
def stateWarm : SessionState :=
  { initialized := true, request_headers := some [("user-agent", "UA/1")] }

/-- One fetch of a run against a single domain: the session state left behind
by the endpoint. -/
def runStep (settings : Settings) (s : SessionState) (p : Env × FetchRequest) :
    SessionState :=
  (fetch_endpoint p.1 p.2 s settings).2

/-- The successive session states of a run against one domain. -/
def runStates (settings : Settings) : SessionState → List (Env × FetchRequest) →
    List SessionState
  | s, [] => [s]
  | s, p :: rest => s :: runStates settings (runStep settings s p) rest

theorem lookupKey_updAssoc {κ α : Type} [DecidableEq κ]
    (m : List (κ × α)) (k : κ) (v : α) (j : κ) :
    lookupKey (updAssoc m k v) j = if j = k then some v else lookupKey m j := by
  induction m with
  | nil =>
    simp only [updAssoc, lookupKey]
    by_cases h : j = k
    · simp [h]
    · have h2 : ¬ (k = j) := fun hh => h hh.symm
      simp [h, h2]
  | cons p rest ih =>
    simp only [updAssoc]
    by_cases hp : p.1 = k
    · simp only [hp, if_true, lookupKey]
      by_cases hj : j = k
      · simp [hj]
      · have h2 : ¬ (k = j) := fun hh => hj hh.symm
        have h3 : ¬ (p.1 = j) := by rw [hp]; exact h2
        simp [lookupKey, hj, h2, h3]
    · simp only [hp, if_false, lookupKey, ih]
      by_cases hj : p.1 = j
      · have h2 : ¬ (j = k) := by
          intro hh; exact hp (hj.trans hh)
        simp [hj, h2]
      · simp [hj]

theorem keys_updAssoc {κ α : Type} [DecidableEq κ]
    (m : List (κ × α)) (k : κ) (v : α) :
    (updAssoc m k v).map Prod.fst =
      if k ∈ m.map Prod.fst then m.map Prod.fst else m.map Prod.fst ++ [k] := by
  induction m with
  | nil => simp [updAssoc]
  | cons p rest ih =>
    simp only [updAssoc]
    by_cases hp : p.1 = k
    · simp [hp]
    · have hne : ¬ (k = p.1) := fun hh => hp hh.symm
      by_cases hmem : k ∈ rest.map Prod.fst
      · have hm : k ∈ (p :: rest).map Prod.fst := by simp [hmem]
        simp [hp, ih, hmem, hm]
      · have hm : k ∉ (p :: rest).map Prod.fst := by
          simp [List.mem_cons, hne, hmem]
        simp [hp, ih, hmem, hm, hne]

theorem updAssoc_not_mem {κ α : Type} [DecidableEq κ]
    (m : List (κ × α)) (k : κ) (v : α) (h : k ∉ m.map Prod.fst) :
    updAssoc m k v = m ++ [(k, v)] := by
  induction m with
  | nil => simp [updAssoc]
  | cons p rest ih =>
    have hp : ¬ (p.1 = k) := by
      intro hh
      exact h (by simp [hh])
    have hrest : k ∉ rest.map Prod.fst := by
      intro hh
      exact h (by simp [hh])
    simp [updAssoc, hp, ih hrest]

theorem lookupKey_not_mem {κ α : Type} [DecidableEq κ]
    (m : List (κ × α)) (k : κ) (h : k ∉ m.map Prod.fst) :
    lookupKey m k = none := by
  induction m with
  | nil => rfl
  | cons p rest ih =>
    have hp : ¬ (p.1 = k) := by
      intro hh
      exact h (by simp [hh])
    have hrest : k ∉ rest.map Prod.fst := by
      intro hh
      exact h (by simp [hh])
    simp [lookupKey, hp, ih hrest]

theorem keys_foldl_dictInsert (b : List CookieState) :
    ∀ M : List (CookieKey × CookieState),
      (b.foldl dictInsert M).map Prod.fst = firstInsertKeysFrom (M.map Prod.fst) b := by
  induction b with
  | nil => intro M; rfl
  | cons c rest ih =>
    intro M
    show (rest.foldl dictInsert (dictInsert M c)).map Prod.fst = _
    rw [ih (dictInsert M c), dictInsert, keys_updAssoc]
    show _ = firstInsertKeysFrom
      (if c.key ∈ M.map Prod.fst then M.map Prod.fst else M.map Prod.fst ++ [c.key]) rest
    by_cases hc : c.key ∈ M.map Prod.fst
    · rw [if_pos hc, if_pos hc]
    · rw [if_neg hc, if_neg hc]

theorem lookupKey_foldl_dictInsert (b : List CookieState) :
    ∀ (M : List (CookieKey × CookieState)) (j : CookieKey),
      lookupKey (b.foldl dictInsert M) j =
        match lastWriter b j with
        | some d => some d
        | none => lookupKey M j := by
  induction b with
  | nil => intro M j; rfl
  | cons c rest ih =>
    intro M j
    show lookupKey (rest.foldl dictInsert (dictInsert M c)) j = _
    rw [ih]
    cases h : lastWriter rest j with
    | some d => simp [lastWriter, h]
    | none =>
      simp only [lastWriter, h]
      rw [dictInsert, lookupKey_updAssoc]
      by_cases hj : j = c.key
      · simp [hj]
      · have h2 : ¬ (c.key = j) := fun hh => hj hh.symm
        simp [hj, h2]

theorem lastWriter_append (a b : List CookieState) (k : CookieKey) :
    lastWriter (a ++ b) k =
      match lastWriter b k with
      | some d => some d
      | none => lastWriter a k := by
  induction a with
  | nil => cases h : lastWriter b k <;> simp [lastWriter, h]
  | cons c rest ih =>
    show (match lastWriter (rest ++ b) k with
          | some d => some d
          | none => if c.key = k then some c else none) = _
    rw [ih]
    cases hb : lastWriter b k with
    | some d => rfl
    | none =>
      cases hr : lastWriter rest k with
      | some d => simp [lastWriter, hr]
      | none => simp [lastWriter, hr]

theorem keyedPairs_updAssoc_self (c : CookieState) :
    ∀ m, KeyedPairs m → KeyedPairs (updAssoc m c.key c) := by
  intro m
  induction m with
  | nil =>
    intro _ p hp
    simp only [updAssoc, List.mem_singleton] at hp
    subst hp
    rfl
  | cons q rest ih =>
    intro h
    have hq0 : q.1 = q.2.key := h q (List.mem_cons_self q rest)
    have hrest : KeyedPairs rest := fun p hp => h p (List.mem_cons_of_mem q hp)
    intro p hp
    rw [updAssoc] at hp
    by_cases hq : q.1 = c.key
    · rw [if_pos hq] at hp
      rcases List.mem_cons.mp hp with h1 | h2
      · subst h1; rfl
      · exact hrest p h2
    · rw [if_neg hq] at hp
      rcases List.mem_cons.mp hp with h1 | h2
      · subst h1; exact hq0
      · exact ih hrest p h2

theorem keyedPairs_foldl (b : List CookieState) :
    ∀ M, KeyedPairs M → KeyedPairs (b.foldl dictInsert M) := by
  induction b with
  | nil => intro M h; exact h
  | cons c rest ih =>
    intro M h
    exact ih _ (keyedPairs_updAssoc_self c M h)

theorem keyedPairs_cookieDict (a : List CookieState) : KeyedPairs (cookieDict a) :=
  keyedPairs_foldl a [] (fun p hp => absurd hp (List.not_mem_nil p))

theorem map_key_of_keyedPairs :
    ∀ m, KeyedPairs m → (m.map Prod.snd).map CookieState.key = m.map Prod.fst := by
  intro m
  induction m with
  | nil => intro _; rfl
  | cons p rest ih =>
    intro h
    have h0 : p.1 = p.2.key := h p (List.mem_cons_self p rest)
    have hrest : KeyedPairs rest := fun q hq => h q (List.mem_cons_of_mem p hq)
    simp [ih hrest, h0.symm]

theorem nodup_firstInsertKeysFrom (b : List CookieState) :
    ∀ ks, ks.Nodup → (firstInsertKeysFrom ks b).Nodup := by
  induction b with
  | nil => intro ks h; exact h
  | cons c rest ih =>
    intro ks h
    show (firstInsertKeysFrom (if c.key ∈ ks then ks else ks ++ [c.key]) rest).Nodup
    by_cases hc : c.key ∈ ks
    · rw [if_pos hc]; exact ih ks h
    · rw [if_neg hc]
      apply ih
      simp [List.nodup_append, h, hc]

theorem mem_firstInsertKeysFrom_of_mem (b : List CookieState) :
    ∀ ks k, k ∈ ks → k ∈ firstInsertKeysFrom ks b := by
  induction b with
  | nil => intro ks k h; exact h
  | cons c rest ih =>
    intro ks k h
    show k ∈ firstInsertKeysFrom (if c.key ∈ ks then ks else ks ++ [c.key]) rest
    by_cases hc : c.key ∈ ks
    · rw [if_pos hc]; exact ih ks k h
    · rw [if_neg hc]; exact ih _ k (by simp [h])

theorem key_mem_firstInsertKeysFrom (b : List CookieState) :
    ∀ ks c, c ∈ b → c.key ∈ firstInsertKeysFrom ks b := by
  induction b with
  | nil => intro ks c h; cases h
  | cons d rest ih =>
    intro ks c h
    rcases List.mem_cons.mp h with h1 | h2
    · subst h1
      show c.key ∈ firstInsertKeysFrom (if c.key ∈ ks then ks else ks ++ [c.key]) rest
      by_cases hc : c.key ∈ ks
      · rw [if_pos hc]; exact mem_firstInsertKeysFrom_of_mem rest ks c.key hc
      · rw [if_neg hc]; exact mem_firstInsertKeysFrom_of_mem rest _ c.key (by simp)
    · exact ih _ c h2

theorem firstInsertKeysFrom_of_forall_mem (b : List CookieState) :
    ∀ ks, (∀ c ∈ b, c.key ∈ ks) → firstInsertKeysFrom ks b = ks := by
  induction b with
  | nil => intro ks _; rfl
  | cons c rest ih =>
    intro ks h
    have hc : c.key ∈ ks := h c (List.mem_cons_self c rest)
    show firstInsertKeysFrom (if c.key ∈ ks then ks else ks ++ [c.key]) rest = ks
    rw [if_pos hc]
    exact ih ks (fun d hd => h d (List.mem_cons_of_mem c hd))

theorem foldl_dictInsert_of_keyed :
    ∀ (m : List (CookieKey × CookieState)) (acc : List (CookieKey × CookieState)),
      KeyedPairs m → (acc.map Prod.fst ++ m.map Prod.fst).Nodup →
      (m.map Prod.snd).foldl dictInsert acc = acc ++ m := by
  intro m
  induction m with
  | nil => intro acc _ _; simp
  | cons p rest ih =>
    intro acc hkeyed hnodup
    have hp : p.1 = p.2.key := hkeyed p (List.mem_cons_self p rest)
    have hrest : KeyedPairs rest := fun q hq => hkeyed q (List.mem_cons_of_mem p hq)
    have hnotin : p.1 ∉ acc.map Prod.fst := by
      have := (List.nodup_append.mp hnodup).2.2
      intro hmem
      exact this hmem (by simp)
    show (rest.map Prod.snd).foldl dictInsert (dictInsert acc p.2) = acc ++ p :: rest
    have hins : dictInsert acc p.2 = acc ++ [(p.2.key, p.2)] :=
      updAssoc_not_mem acc p.2.key p.2 (hp ▸ hnotin)
    have hpair : (p.2.key, p.2) = p := by
      cases p with
      | mk k c => simp at hp; simp [hp]
    rw [hins, hpair]
    have hnodup2 : ((acc ++ [p]).map Prod.fst ++ rest.map Prod.fst).Nodup := by
      have : (acc ++ [p]).map Prod.fst ++ rest.map Prod.fst =
          acc.map Prod.fst ++ (p :: rest).map Prod.fst := by
        simp
      rw [this]
      exact hnodup
    rw [ih (acc ++ [p]) hrest hnodup2]
    simp

theorem assoc_ext :
    ∀ (M N : List (CookieKey × CookieState)),
      M.map Prod.fst = N.map Prod.fst → (M.map Prod.fst).Nodup →
      (∀ k, lookupKey M k = lookupKey N k) → M = N := by
  intro M
  induction M with
  | nil =>
    intro N hk _ _
    cases N with
    | nil => rfl
    | cons q N1 => simp at hk
  | cons p M1 ih =>
    intro N hk hnd hl
    cases N with
    | nil => simp at hk
    | cons q N1 =>
      simp only [List.map_cons, List.cons.injEq] at hk
      have hq1 : q.1 = p.1 := hk.1.symm
      have hval := hl p.1
      rw [lookupKey, lookupKey, if_pos rfl, if_pos hq1] at hval
      have hv : p.2 = q.2 := Option.some.inj hval
      have hpq : p = q := by
        cases p with
        | mk pk pv =>
          cases q with
          | mk qk qv =>
            simp at hq1 hv
            simp [hq1, hv]
      subst hpq
      have hndtail : (M1.map Prod.fst).Nodup := (List.nodup_cons.mp hnd).2
      have hhead : p.1 ∉ M1.map Prod.fst := (List.nodup_cons.mp hnd).1
      have htl : ∀ k, lookupKey M1 k = lookupKey N1 k := by
        intro k
        by_cases hkp : p.1 = k
        · have h1 : k ∉ M1.map Prod.fst := hkp ▸ hhead
          have h2 : k ∉ N1.map Prod.fst := by
            rw [← hk.2]; exact h1
          rw [lookupKey_not_mem _ _ h1, lookupKey_not_mem _ _ h2]
        · have := hl k
          rw [lookupKey, lookupKey, if_neg hkp, if_neg hkp] at this
          exact this
      rw [ih N1 hk.2 hndtail htl]

theorem find?_map_snd (k : CookieKey) :
    ∀ m, KeyedPairs m →
      (m.map Prod.snd).find? (fun c => decide (c.key = k)) = lookupKey m k := by
  intro m
  induction m with
  | nil => intro _; rfl
  | cons p rest ih =>
    intro h
    have hp : p.1 = p.2.key := h p (List.mem_cons_self p rest)
    have hrest : KeyedPairs rest := fun q hq => h q (List.mem_cons_of_mem p hq)
    by_cases hk : p.2.key = k
    · have hk1 : p.1 = k := hp.trans hk
      simp [List.find?, lookupKey, hk, hk1]
    · have hk1 : ¬ (p.1 = k) := fun hh => hk (hp.symm.trans hh |>.symm ▸ rfl)
      simp only [List.map_cons, List.find?, lookupKey]
      rw [if_neg (by rw [hp]; exact hk)]
      simp only [hk, decide_eq_true_eq]
      simp [hk, ih hrest]

theorem option_match_collapse (o : Option CookieState) :
    (match o with
     | some d => some d
     | none => none) = o := by
  cases o <;> rfl

theorem lookupKey_cookieDict (a : List CookieState) (k : CookieKey) :
    lookupKey (cookieDict a) k = lastWriter a k := by
  rw [cookieDict, lookupKey_foldl_dictInsert]
  cases h : lastWriter a k <;> rfl

/-- C8: merge(merge(a,b), b) equals merge(a,b); for every identity key the
cookie found in the merged output is the last cookie of existing++updates
carrying that key (the later write wins); and the merged output lists its
keys in first-insertion order of existing++updates. -/
theorem merge_cookies_idem_lastwins_order (a b : List CookieState) :
    merge_cookies (merge_cookies a b) b = merge_cookies a b ∧
    (∀ k, (merge_cookies a b).find? (fun c => decide (c.key = k)) =
      lastWriter (a ++ b) k) ∧
    (merge_cookies a b).map CookieState.key = firstInsertKeys (a ++ b) := by
  have hKeyedD : KeyedPairs (b.foldl dictInsert (cookieDict a)) :=
    keyedPairs_foldl b _ (keyedPairs_cookieDict a)
  have hKeysD : (b.foldl dictInsert (cookieDict a)).map Prod.fst =
      firstInsertKeysFrom (firstInsertKeysFrom [] a) b := by
    rw [keys_foldl_dictInsert, cookieDict, keys_foldl_dictInsert]
    rfl
  have hNodupD : ((b.foldl dictInsert (cookieDict a)).map Prod.fst).Nodup := by
    rw [hKeysD]
    exact nodup_firstInsertKeysFrom b _ (nodup_firstInsertKeysFrom a [] List.nodup_nil)
  have hRecon : cookieDict (merge_cookies a b) = b.foldl dictInsert (cookieDict a) := by
    rw [merge_cookies, cookieDict]
    have := foldl_dictInsert_of_keyed (b.foldl dictInsert (cookieDict a)) [] hKeyedD
      (by simpa using hNodupD)
    simpa using this
  have hStable : b.foldl dictInsert (b.foldl dictInsert (cookieDict a)) =
      b.foldl dictInsert (cookieDict a) := by
    apply assoc_ext
    · rw [keys_foldl_dictInsert]
      apply firstInsertKeysFrom_of_forall_mem
      intro c hc
      rw [hKeysD]
      exact key_mem_firstInsertKeysFrom b _ c hc
    · rw [keys_foldl_dictInsert]
      rw [firstInsertKeysFrom_of_forall_mem]
      · exact hNodupD
      · intro c hc
        rw [hKeysD]
        exact key_mem_firstInsertKeysFrom b _ c hc
    · intro k
      rw [lookupKey_foldl_dictInsert]
      cases h : lastWriter b k with
      | some d =>
        rw [lookupKey_foldl_dictInsert, h]
      | none => rfl
  refine ⟨?idem, ?wins, ?order⟩
  case idem =>
    show (b.foldl dictInsert (cookieDict (merge_cookies a b))).map Prod.snd = _
    rw [hRecon, hStable]
    rfl
  case wins =>
    intro k
    rw [merge_cookies, find?_map_snd k _ hKeyedD, lookupKey_foldl_dictInsert,
      lastWriter_append]
    cases h : lastWriter b k with
    | some d => rfl
    | none => exact lookupKey_cookieDict a k
  case order =>
    rw [merge_cookies, map_key_of_keyedPairs _ hKeyedD, hKeysD]
    rw [firstInsertKeys, firstInsertKeysFrom, firstInsertKeysFrom, firstInsertKeysFrom,
      List.foldl_append]

theorem sanitize_aux :
    ∀ (l acc : List (String × String)),
      (l.map Prod.fst).Nodup →
      (∀ kv ∈ l, kv.1 ∉ acc.map Prod.fst) →
      l.foldl
        (fun sanitized kv =>
          if pyLower kv.1 ∈ HOP_BY_HOP_HEADERS then sanitized
          else updAssoc sanitized kv.1 kv.2) acc
      = acc ++ l.filter (fun kv => decide (pyLower kv.1 ∉ HOP_BY_HOP_HEADERS)) := by
  intro l
  induction l with
  | nil => intro acc _ _; simp
  | cons kv rest ih =>
    intro acc hnd hdisj
    have hhead : kv.1 ∉ rest.map Prod.fst := (List.nodup_cons.mp (by simpa using hnd)).1
    have htail : (rest.map Prod.fst).Nodup := (List.nodup_cons.mp (by simpa using hnd)).2
    by_cases hhop : pyLower kv.1 ∈ HOP_BY_HOP_HEADERS
    · show rest.foldl _ (if pyLower kv.1 ∈ HOP_BY_HOP_HEADERS then acc else _) = _
      rw [if_pos hhop, ih acc htail (fun q hq => hdisj q (List.mem_cons_of_mem kv hq)),
        List.filter_cons]
      simp [hhop]
    · show rest.foldl _ (if pyLower kv.1 ∈ HOP_BY_HOP_HEADERS then _ else updAssoc acc kv.1 kv.2) = _
      rw [if_neg hhop]
      have hnot : kv.1 ∉ acc.map Prod.fst := hdisj kv (List.mem_cons_self kv rest)
      rw [updAssoc_not_mem acc kv.1 kv.2 hnot]
      have hd2 : ∀ q ∈ rest, q.1 ∉ (acc ++ [(kv.1, kv.2)]).map Prod.fst := by
        intro q hq
        simp only [List.map_append, List.mem_append, List.map_cons, List.map_nil,
          List.mem_singleton]
        rintro (h1 | h2)
        · exact hdisj q (List.mem_cons_of_mem kv hq) h1
        · exact hhead (h2 ▸ List.mem_map_of_mem Prod.fst hq)
      rw [ih (acc ++ [(kv.1, kv.2)]) htail hd2, List.filter_cons]
      simp [hhop]

/-- C9: sanitize_headers removes exactly the entries whose lowercased name is
one of the ten hop-by-hop names, and returns the remaining entries unchanged
and in order (a sublist of the input).  The hypothesis reflects that the input
is a Python mapping, whose keys are unique. -/
theorem sanitize_headers_removes_exactly_hop_by_hop
    (headers : List (String × String)) (h : (headers.map Prod.fst).Nodup) :
    sanitize_headers headers =
      headers.filter (fun kv => decide (pyLower kv.1 ∉
        ["host", "connection", "proxy-connection", "content-length", "accept-encoding",
         "upgrade", "upgrade-insecure-requests", "te", "trailers", "transfer-encoding"])) ∧
    (sanitize_headers headers).Sublist headers := by
  have hmain := sanitize_aux headers [] h (by simp)
  constructor
  · show sanitize_headers headers = headers.filter
      (fun kv => decide (pyLower kv.1 ∉ HOP_BY_HOP_HEADERS))
    rw [sanitize_headers, hmain]
    simp
  · rw [sanitize_headers, hmain]
    simp [List.filter_sublist headers]

/-- Witness for C9 at a concrete header mapping. -/
theorem sanitize_headers_witness :
    (([("User-Agent", "UA/1"), ("Accept-Encoding", "gzip"), ("Host", "x.example"),
       ("Cookie", "c=1")].map (Prod.fst (α := String) (β := String))).Nodup) ∧
    (sanitize_headers [("User-Agent", "UA/1"), ("Accept-Encoding", "gzip"),
        ("Host", "x.example"), ("Cookie", "c=1")] =
      [("User-Agent", "UA/1"), ("Accept-Encoding", "gzip"), ("Host", "x.example"),
        ("Cookie", "c=1")].filter (fun kv => decide (pyLower kv.1 ∉
        ["host", "connection", "proxy-connection", "content-length", "accept-encoding",
         "upgrade", "upgrade-insecure-requests", "te", "trailers", "transfer-encoding"])) ∧
      (sanitize_headers [("User-Agent", "UA/1"), ("Accept-Encoding", "gzip"),
        ("Host", "x.example"), ("Cookie", "c=1")]).Sublist
        [("User-Agent", "UA/1"), ("Accept-Encoding", "gzip"), ("Host", "x.example"),
         ("Cookie", "c=1")]) :=
  ⟨by decide, sanitize_headers_removes_exactly_hop_by_hop _ (by decide)⟩

theorem mgrStep_nonneg (settings : Settings) (s : MgrState) (e : MgrEvent)
    (h : 0 ≤ s.active_tabs) : 0 ≤ (mgrStep settings s e).active_tabs := by
  cases e with
  | acquire t fail =>
    simp only [mgrStep]
    by_cases hf : fail = some AcquireFail.start
    · rw [if_pos hf]; exact h
    · rw [if_neg hf]
      by_cases hb : s.browser <;> simp [hb] <;> omega
  | release t =>
    simp only [mgrStep]
    split <;> simp
  | idleFire t =>
    simp only [mgrStep]
    split <;> simpa using h

theorem runMgr_nonneg (settings : Settings) :
    ∀ (events : List MgrEvent) (s : MgrState),
      0 ≤ s.active_tabs → 0 ≤ (runMgr settings s events).active_tabs := by
  intro events
  induction events with
  | nil => intro s h; exact h
  | cons e rest ih => intro s h; exact ih _ (mgrStep_nonneg settings s e h)

theorem incAcquires_append (l1 l2 : List MgrEvent) :
    incAcquires (l1 ++ l2) = incAcquires l1 + incAcquires l2 := by
  induction l1 with
  | nil => simp [incAcquires]
  | cons e rest ih => cases e <;> simp [incAcquires, ih] <;> ring

theorem succAcquires_append (l1 l2 : List MgrEvent) :
    succAcquires (l1 ++ l2) = succAcquires l1 + succAcquires l2 := by
  induction l1 with
  | nil => simp [succAcquires]
  | cons e rest ih => cases e <;> simp [succAcquires, ih] <;> ring

theorem releaseCount_append (l1 l2 : List MgrEvent) :
    releaseCount (l1 ++ l2) = releaseCount l1 + releaseCount l2 := by
  induction l1 with
  | nil => simp [releaseCount]
  | cons e rest ih => cases e <;> simp [releaseCount, ih] <;> ring

theorem succ_le_inc (l : List MgrEvent) : succAcquires l ≤ incAcquires l := by
  induction l with
  | nil => simp [succAcquires, incAcquires]
  | cons e rest ih =>
    cases e with
    | acquire t fail =>
      simp only [succAcquires, incAcquires]
      have hd : (if fail = none then (1 : Int) else 0) ≤
          (if fail = some AcquireFail.start then 0 else 1) := by
        by_cases hf : fail = none
        · simp [hf]
        · by_cases hs : fail = some AcquireFail.start <;> simp [hf, hs]
      omega
    | release t => simpa [succAcquires, incAcquires] using ih
    | idleFire t => simpa [succAcquires, incAcquires] using ih

theorem scoped_prefix {pre : List MgrEvent} {e : MgrEvent}
    (h : ScopedReleases (pre ++ [e])) : ScopedReleases pre := by
  intro i
  by_cases hi : i ≤ pre.length
  · have heq : (pre ++ [e]).take i = pre.take i := List.take_append_of_le_length hi
    have h2 := h i
    rw [heq] at h2
    exact h2
  · have hlen : pre.length ≤ i := le_of_not_le hi
    rw [List.take_of_length_le hlen]
    have h2 := h pre.length
    rw [List.take_append_of_le_length (le_refl _)] at h2
    simpa using h2

theorem runMgr_append_singleton (settings : Settings) (s : MgrState)
    (pre : List MgrEvent) (e : MgrEvent) :
    runMgr settings s (pre ++ [e]) = mgrStep settings (runMgr settings s pre) e := by
  simp [runMgr, List.foldl_append]

theorem runMgr_balance (settings : Settings) :
    ∀ events : List MgrEvent, ScopedReleases events →
      (runMgr settings mgrInit events).active_tabs
        = incAcquires events - releaseCount events := by
  intro events
  induction events using List.reverseRecOn with
  | nil => intro _; rfl
  | append_singleton pre e ih =>
    intro h
    have hpre := scoped_prefix h
    rw [runMgr_append_singleton, incAcquires_append, releaseCount_append]
    cases e with
    | acquire t fail =>
      simp only [mgrStep]
      by_cases hf : fail = some AcquireFail.start
      · rw [if_pos hf, ih hpre]
        simp [incAcquires, releaseCount, hf]
      · rw [if_neg hf]
        by_cases hb : (runMgr settings mgrInit pre).browser <;>
          simp [hb, incAcquires, releaseCount, hf, ih hpre] <;> ring
    | release t =>
      have htabs : 1 ≤ (runMgr settings mgrInit pre).active_tabs := by
        have hfull := h (pre ++ [MgrEvent.release t]).length
        rw [List.take_of_length_le (le_refl _)] at hfull
        rw [releaseCount_append, succAcquires_append] at hfull
        have h1 : releaseCount pre + 1 ≤ succAcquires pre := by
          simpa [releaseCount, succAcquires] using hfull
        have h2 := succ_le_inc pre
        have h3 := ih hpre
        omega
      have hstep : (mgrStep settings (runMgr settings mgrInit pre)
          (MgrEvent.release t)).active_tabs
          = max 0 ((runMgr settings mgrInit pre).active_tabs - 1) := by
        simp only [mgrStep]
        split <;> rfl
      rw [hstep]
      have heq := ih hpre
      simp only [releaseCount, incAcquires]
      omega
    | idleFire t =>
      have hstep : (mgrStep settings (runMgr settings mgrInit pre)
          (MgrEvent.idleFire t)).active_tabs
          = (runMgr settings mgrInit pre).active_tabs := by
        simp only [mgrStep]
        split <;> rfl
      rw [hstep, ih hpre]
      simp [releaseCount, incAcquires]

/-- Claim C2 counterexample: an acquire attempt that fails while opening the
tab (after the counter increment) leaves active_tabs at one, although zero
acquires succeeded and zero releases were performed, so the counter does not
equal (acquires succeeded minus releases performed). -/
theorem active_tabs_ne_succ_minus_releases :
    (runMgr setD mgrInit [MgrEvent.acquire 1 (some AcquireFail.openTab)]).active_tabs = 1 ∧
    succAcquires [MgrEvent.acquire 1 (some AcquireFail.openTab)]
      - releaseCount [MgrEvent.acquire 1 (some AcquireFail.openTab)] = 0 := by
  constructor <;> decide

/-- Claim C2 (amended): the tab counter never goes negative, and under the
scoped-release discipline it equals the number of increment-passing acquire
attempts minus the number of releases: a browser-start failure leaves the
whole manager state untouched, while an attempt failing after the increment
(tab open, domain enable, cookie install) leaves the counter elevated by one
with no release to balance it. -/
theorem active_tabs_nonneg_and_balance (settings : Settings) (events : List MgrEvent) :
    0 ≤ (runMgr settings mgrInit events).active_tabs ∧
    (ScopedReleases events →
      (runMgr settings mgrInit events).active_tabs
        = incAcquires events - releaseCount events) ∧
    (∀ t, mgrStep settings (runMgr settings mgrInit events)
        (MgrEvent.acquire t (some AcquireFail.start)) = runMgr settings mgrInit events) := by
  refine ⟨runMgr_nonneg settings events mgrInit (le_refl 0), runMgr_balance settings events, ?_⟩
  intro t
  simp [mgrStep]

/-- Witness for the amended C2 at a concrete trace: a successful acquire, its
release, then an acquire failing at tab open leave the counter at one, equal
to two increments minus one release. -/
theorem active_tabs_balance_witness :
    ScopedReleases [MgrEvent.acquire 1 none, MgrEvent.release 2,
      MgrEvent.acquire 3 (some AcquireFail.openTab)] ∧
    (runMgr setD mgrInit [MgrEvent.acquire 1 none, MgrEvent.release 2,
      MgrEvent.acquire 3 (some AcquireFail.openTab)]).active_tabs
      = incAcquires [MgrEvent.acquire 1 none, MgrEvent.release 2,
          MgrEvent.acquire 3 (some AcquireFail.openTab)]
        - releaseCount [MgrEvent.acquire 1 none, MgrEvent.release 2,
          MgrEvent.acquire 3 (some AcquireFail.openTab)] := by
  have hscoped : ScopedReleases [MgrEvent.acquire 1 none, MgrEvent.release 2,
      MgrEvent.acquire 3 (some AcquireFail.openTab)] := by
    intro i
    match i with
    | 0 => decide
    | 1 => decide
    | 2 => decide
    | n + 3 =>
      rw [List.take_of_length_le (by simp)]
      decide
  exact ⟨hscoped,
    (active_tabs_nonneg_and_balance setD [MgrEvent.acquire 1 none, MgrEvent.release 2,
      MgrEvent.acquire 3 (some AcquireFail.openTab)]).2.1 hscoped⟩

theorem mgrStep_pending_acquire (settings : Settings) (s : MgrState) (t : Rat)
    (fail : Option AcquireFail) :
    (mgrStep settings s (MgrEvent.acquire t fail)).pending = s.pending := by
  simp only [mgrStep]
  by_cases hf : fail = some AcquireFail.start
  · rw [if_pos hf]
  · rw [if_neg hf]
    by_cases hb : s.browser <;> simp [hb]

theorem mgrStep_pending_release (settings : Settings) (s : MgrState) (t : Rat) :
    (mgrStep settings s (MgrEvent.release t)).pending = s.pending ∨
    (mgrStep settings s (MgrEvent.release t)).pending = some t := by
  simp only [mgrStep]
  split
  · exact Or.inr rfl
  · exact Or.inl rfl

theorem mgrStep_pending_release_some (settings : Settings) (s : MgrState)
    (t u : Rat) (h : s.pending = some u) :
    (mgrStep settings s (MgrEvent.release t)).pending = some u := by
  simp only [mgrStep]
  split
  · rename_i hcond
    exact absurd hcond.2 (by simp [h])
  · simpa using h

theorem mgrStep_acquire_start (settings : Settings) (s : MgrState) (t : Rat)
    {fail : Option AcquireFail} (hf : fail = some AcquireFail.start) :
    mgrStep settings s (MgrEvent.acquire t fail) = s := by
  simp [mgrStep, hf]

theorem mgrStep_tabs_acquire (settings : Settings) (s : MgrState) (t : Rat)
    {fail : Option AcquireFail} (hf : ¬ fail = some AcquireFail.start) :
    (mgrStep settings s (MgrEvent.acquire t fail)).active_tabs = s.active_tabs + 1 := by
  simp only [mgrStep, if_neg hf]
  by_cases hb : s.browser <;> simp [hb]

theorem mgrStep_pending_idleFire (settings : Settings) (s : MgrState) (t : Rat) :
    (mgrStep settings s (MgrEvent.idleFire t)).pending = none := by
  simp only [mgrStep]
  split <;> rfl

theorem mgrStep_last_used_acquire (settings : Settings) (s : MgrState) (t : Rat)
    (fail : Option AcquireFail) :
    (mgrStep settings s (MgrEvent.acquire t fail)).last_used = s.last_used ∨
    (mgrStep settings s (MgrEvent.acquire t fail)).last_used = t := by
  simp only [mgrStep]
  by_cases hf : fail = some AcquireFail.start
  · rw [if_pos hf]; exact Or.inl rfl
  · rw [if_neg hf]
    by_cases hb : s.browser <;> simp [hb]

theorem mgrStep_last_used_release (settings : Settings) (s : MgrState) (t : Rat) :
    (mgrStep settings s (MgrEvent.release t)).last_used = t := by
  simp only [mgrStep]
  split <;> rfl

theorem mgrStep_last_used_idleFire (settings : Settings) (s : MgrState) (t : Rat) :
    (mgrStep settings s (MgrEvent.idleFire t)).last_used = s.last_used := by
  simp only [mgrStep]
  split <;> rfl

theorem wfRunB_cons_acquire {settings : Settings} {s : MgrState} {t : Rat}
    {fail : Option AcquireFail} {rest : List MgrEvent}
    (h : wfRunB settings s (MgrEvent.acquire t fail :: rest) = true) :
    (fail = some AcquireFail.start → s.browser = false) ∧
    wfRunB settings (mgrStep settings s (MgrEvent.acquire t fail)) rest = true := by
  rw [wfRunB, Bool.and_eq_true] at h
  refine ⟨?_, h.2⟩
  intro hf
  have h1 := h.1
  rw [if_pos hf] at h1
  exact of_decide_eq_true h1

theorem wfRunB_cons_release {settings : Settings} {s : MgrState} {t : Rat}
    {rest : List MgrEvent}
    (h : wfRunB settings s (MgrEvent.release t :: rest) = true) :
    wfRunB settings (mgrStep settings s (MgrEvent.release t)) rest = true := by
  rw [wfRunB, Bool.and_eq_true] at h
  exact h.2

theorem wfRunB_cons_idleFire {settings : Settings} {s : MgrState} {t : Rat}
    {rest : List MgrEvent}
    (h : wfRunB settings s (MgrEvent.idleFire t :: rest) = true) :
    s.pending = some (t - settings.browser_idle_shutdown_seconds) ∧
    wfRunB settings (mgrStep settings s (MgrEvent.idleFire t)) rest = true := by
  rw [wfRunB, Bool.and_eq_true] at h
  exact ⟨of_decide_eq_true h.1, h.2⟩

theorem pending_bound (settings : Settings) :
    ∀ (l : List MgrEvent) (s : MgrState) (b : Rat),
      ((b :: l.map eventTime).Chain' (· < ·)) →
      (∀ u, s.pending = some u → u ≤ b) →
      ∀ t0, (runMgr settings s l).pending = some t0 →
        s.pending = some t0 ∨ b < t0 := by
  intro l
  induction l with
  | nil => intro s b _ _ t0 h; exact Or.inl h
  | cons e rest ih =>
    intro s b hchain hbnd t0 hfin
    have hbe : b < eventTime e := by
      have := (List.chain'_cons.mp (by simpa using hchain)).1
      exact this
    have hchain2 : (eventTime e :: rest.map eventTime).Chain' (· < ·) :=
      (List.chain'_cons.mp (by simpa using hchain)).2
    have hfin2 : (runMgr settings (mgrStep settings s e) rest).pending = some t0 := hfin
    have hbnd2 : ∀ u, (mgrStep settings s e).pending = some u → u ≤ eventTime e := by
      intro u hu
      cases e with
      | acquire t fail =>
        rw [mgrStep_pending_acquire] at hu
        exact le_of_lt (lt_of_le_of_lt (hbnd u hu) hbe)
      | release t =>
        rcases mgrStep_pending_release settings s t with heq | heq
        · rw [heq] at hu
          exact le_of_lt (lt_of_le_of_lt (hbnd u hu) hbe)
        · rw [heq] at hu
          exact le_of_eq (Option.some.inj hu).symm
      | idleFire t =>
        rw [mgrStep_pending_idleFire] at hu
        cases hu
    rcases ih (mgrStep settings s e) (eventTime e) hchain2 hbnd2 t0 hfin2 with h1 | h1
    · cases e with
      | acquire t fail =>
        rw [mgrStep_pending_acquire] at h1
        exact Or.inl h1
      | release t =>
        rcases mgrStep_pending_release settings s t with heq | heq
        · rw [heq] at h1; exact Or.inl h1
        · rw [heq] at h1
          have ht : t0 = t := (Option.some.inj h1).symm
          exact Or.inr (ht ▸ hbe)
      | idleFire t =>
        rw [mgrStep_pending_idleFire] at h1
        cases h1
    · exact Or.inr (lt_trans hbe h1)

theorem stop_blocked_invariant (settings : Settings) :
    ∀ (l : List MgrEvent) (s : MgrState) (b t0 : Rat),
      ((b :: l.map eventTime).Chain' (· < ·)) →
      wfRunB settings s l = true →
      0 ≤ s.active_tabs →
      s.last_used ≤ b →
      (∀ u, s.pending = some u → u ≤ s.last_used) →
      ((s.pending = some t0 ∧ StopBlocked s t0) ∨
        (∃ e ∈ l, isAcquireEvent e = true ∧ t0 < eventTime e)) →
      (runMgr settings s l).pending = some t0 →
      StopBlocked (runMgr settings s l) t0 := by
  intro l
  induction l with
  | nil =>
    intro s b t0 _ _ _ _ _ htrig hfin
    rcases htrig with ⟨_, hD⟩ | ⟨e, he, _⟩
    · exact hD
    · cases he
  | cons e rest ih =>
    intro s b t0 hchain hwf htabs hlub hpb htrig hfin
    have hbe : b < eventTime e := (List.chain'_cons.mp (by simpa using hchain)).1
    have hchain2 : (eventTime e :: rest.map eventTime).Chain' (· < ·) :=
      (List.chain'_cons.mp (by simpa using hchain)).2
    have hfin2 : (runMgr settings (mgrStep settings s e) rest).pending = some t0 := hfin
    cases e with
    | acquire t fail =>
      simp only [eventTime] at hbe hchain2
      obtain ⟨hwfs, hwf2⟩ := wfRunB_cons_acquire hwf
      have htabs2 : 0 ≤ (mgrStep settings s (MgrEvent.acquire t fail)).active_tabs :=
        mgrStep_nonneg settings s _ htabs
      have hlu_mono : s.last_used ≤
          (mgrStep settings s (MgrEvent.acquire t fail)).last_used := by
        rcases mgrStep_last_used_acquire settings s t fail with heq | heq
        · rw [heq]
        · rw [heq]
          exact le_of_lt (lt_of_le_of_lt hlub hbe)
      have hlu2 : (mgrStep settings s (MgrEvent.acquire t fail)).last_used ≤ t := by
        rcases mgrStep_last_used_acquire settings s t fail with heq | heq
        · rw [heq]; exact le_of_lt (lt_of_le_of_lt hlub hbe)
        · rw [heq]
      have hpb2 : ∀ u, (mgrStep settings s (MgrEvent.acquire t fail)).pending = some u →
          u ≤ (mgrStep settings s (MgrEvent.acquire t fail)).last_used := by
        intro u hu
        rw [mgrStep_pending_acquire] at hu
        exact le_trans (hpb u hu) hlu_mono
      have hDpres : StopBlocked s t0 →
          StopBlocked (mgrStep settings s (MgrEvent.acquire t fail)) t0 := by
        intro hD
        rcases hD with hD | hD | hD
        · exact Or.inl (lt_of_lt_of_le hD hlu_mono)
        · by_cases hf : fail = some AcquireFail.start
          · rw [mgrStep_acquire_start settings s t hf]
            exact Or.inr (Or.inl hD)
          · refine Or.inr (Or.inl ?_)
            rw [mgrStep_tabs_acquire settings s t hf]
            omega
        · by_cases hf : fail = some AcquireFail.start
          · rw [mgrStep_acquire_start settings s t hf]
            exact Or.inr (Or.inr hD)
          · refine Or.inr (Or.inl ?_)
            rw [mgrStep_tabs_acquire settings s t hf]
            omega
      have htrig2 : ((mgrStep settings s (MgrEvent.acquire t fail)).pending = some t0 ∧
          StopBlocked (mgrStep settings s (MgrEvent.acquire t fail)) t0) ∨
          (∃ e0 ∈ rest, isAcquireEvent e0 = true ∧ t0 < eventTime e0) := by
        rcases htrig with ⟨hp, hD⟩ | ⟨e0, he0, hacq0, ht0⟩
        · exact Or.inl ⟨by rw [mgrStep_pending_acquire]; exact hp, hDpres hD⟩
        · rcases List.mem_cons.mp he0 with heq0 | hmem
          · subst heq0
            simp only [eventTime] at ht0
            have hple : ∀ u, (mgrStep settings s (MgrEvent.acquire t fail)).pending = some u →
                u ≤ t := fun u hu => le_trans (hpb2 u hu) hlu2
            rcases pending_bound settings rest _ t hchain2 hple t0 hfin2 with hps | hgt
            · refine Or.inl ⟨hps, ?_⟩
              by_cases hf : fail = some AcquireFail.start
              · rw [mgrStep_acquire_start settings s t hf]
                exact Or.inr (Or.inr (hwfs hf))
              · refine Or.inr (Or.inl ?_)
                rw [mgrStep_tabs_acquire settings s t hf]
                omega
            · exact absurd ht0 (not_lt.mpr (le_of_lt hgt))
          · exact Or.inr ⟨e0, hmem, hacq0, ht0⟩
      exact ih (mgrStep settings s (MgrEvent.acquire t fail)) t t0 hchain2 hwf2 htabs2
        hlu2 hpb2 htrig2 hfin2
    | release t =>
      simp only [eventTime] at hbe hchain2
      have hwf2 := wfRunB_cons_release hwf
      have htabs2 : 0 ≤ (mgrStep settings s (MgrEvent.release t)).active_tabs :=
        mgrStep_nonneg settings s _ htabs
      have hlu1 : (mgrStep settings s (MgrEvent.release t)).last_used = t :=
        mgrStep_last_used_release settings s t
      have hlu2 : (mgrStep settings s (MgrEvent.release t)).last_used ≤ t := le_of_eq hlu1
      have hpb2 : ∀ u, (mgrStep settings s (MgrEvent.release t)).pending = some u →
          u ≤ (mgrStep settings s (MgrEvent.release t)).last_used := by
        intro u hu
        rw [hlu1]
        rcases mgrStep_pending_release settings s t with heq | heq
        · rw [heq] at hu
          exact le_of_lt (lt_of_le_of_lt (le_trans (hpb u hu) hlub) hbe)
        · rw [heq] at hu
          exact le_of_eq (Option.some.inj hu).symm
      have htrig2 : ((mgrStep settings s (MgrEvent.release t)).pending = some t0 ∧
          StopBlocked (mgrStep settings s (MgrEvent.release t)) t0) ∨
          (∃ e0 ∈ rest, isAcquireEvent e0 = true ∧ t0 < eventTime e0) := by
        rcases htrig with ⟨hp, _⟩ | ⟨e0, he0, hacq0, ht0⟩
        · refine Or.inl ⟨mgrStep_pending_release_some settings s t t0 hp, Or.inl ?_⟩
          rw [hlu1]
          exact lt_of_le_of_lt (le_trans (hpb t0 hp) hlub) hbe
        · rcases List.mem_cons.mp he0 with heq0 | hmem
          · subst heq0
            simp [isAcquireEvent] at hacq0
          · exact Or.inr ⟨e0, hmem, hacq0, ht0⟩
      exact ih (mgrStep settings s (MgrEvent.release t)) t t0 hchain2 hwf2 htabs2
        hlu2 hpb2 htrig2 hfin2
    | idleFire t =>
      simp only [eventTime] at hbe hchain2
      obtain ⟨_, hwf2⟩ := wfRunB_cons_idleFire hwf
      have hpend1 : (mgrStep settings s (MgrEvent.idleFire t)).pending = none :=
        mgrStep_pending_idleFire settings s t
      have hple : ∀ u, (mgrStep settings s (MgrEvent.idleFire t)).pending = some u →
          u ≤ t := by
        intro u hu
        rw [hpend1] at hu
        cases hu
      have htabs2 : 0 ≤ (mgrStep settings s (MgrEvent.idleFire t)).active_tabs :=
        mgrStep_nonneg settings s _ htabs
      have hlu2 : (mgrStep settings s (MgrEvent.idleFire t)).last_used ≤ t := by
        rw [mgrStep_last_used_idleFire]
        exact le_of_lt (lt_of_le_of_lt hlub hbe)
      have hpb2 : ∀ u, (mgrStep settings s (MgrEvent.idleFire t)).pending = some u →
          u ≤ (mgrStep settings s (MgrEvent.idleFire t)).last_used := by
        intro u hu
        rw [hpend1] at hu
        cases hu
      have hgt : t < t0 := by
        rcases pending_bound settings rest _ t hchain2 hple t0 hfin2 with hps | hgt
        · rw [hpend1] at hps
          cases hps
        · exact hgt
      rcases htrig with ⟨hp, _⟩ | ⟨e0, he0, hacq0, ht0⟩
      · exact absurd hgt (not_lt.mpr (le_of_lt
          (lt_of_le_of_lt (le_trans (hpb t0 hp) hlub) hbe)))
      · rcases List.mem_cons.mp he0 with heq0 | hmem
        · subst heq0
          simp [isAcquireEvent] at hacq0
        · exact ih (mgrStep settings s (MgrEvent.idleFire t)) t t0 hchain2 hwf2 htabs2
            hlu2 hpb2 (Or.inr ⟨e0, hmem, hacq0, ht0⟩) hfin2

theorem runMgr_cons (settings : Settings) (s : MgrState) (e : MgrEvent)
    (rest : List MgrEvent) :
    runMgr settings s (e :: rest) = runMgr settings (mgrStep settings s e) rest := rfl

theorem wfRunB_append (settings : Settings) :
    ∀ (l1 l2 : List MgrEvent) (s : MgrState),
      wfRunB settings s (l1 ++ l2) = true ↔
        (wfRunB settings s l1 = true ∧
         wfRunB settings (runMgr settings s l1) l2 = true) := by
  intro l1
  induction l1 with
  | nil =>
    intro l2 s
    constructor
    · intro h; exact ⟨rfl, h⟩
    · intro h; exact h.2
  | cons e rest ih =>
    intro l2 s
    show wfRunB settings s (e :: (rest ++ l2)) = true ↔ _
    simp only [wfRunB, Bool.and_eq_true, ih, runMgr_cons]
    constructor
    · intro h; exact ⟨⟨h.1, h.2.1⟩, h.2.2⟩
    · intro h; exact ⟨h.1.1, h.1.2, h.2⟩

/-- Claim C10: the idle-shutdown firing stops the browser only when the
post-check under the lock passes: whenever it transitions the handle from
present to absent, active_tabs was zero (no tab leased) and at least the idle
interval elapsed since last_used; and if any acquire happened after the time
the pending task was scheduled, the post-check fails and the firing leaves
the browser exactly as it was. -/
theorem idle_shutdown_postcheck (settings : Settings) (pre : List MgrEvent)
    (tf t0 : Rat)
    (hchain : (((0 : Rat) :: (pre ++ [MgrEvent.idleFire tf]).map eventTime).Chain'
      (· < ·)))
    (hwf : wfRunB settings mgrInit (pre ++ [MgrEvent.idleFire tf]) = true) :
    (((mgrStep settings (runMgr settings mgrInit pre) (MgrEvent.idleFire tf)).browser
        = false ∧ (runMgr settings mgrInit pre).browser = true) →
      ((runMgr settings mgrInit pre).active_tabs = 0 ∧
       tf - (runMgr settings mgrInit pre).last_used
         ≥ settings.browser_idle_shutdown_seconds)) ∧
    ((runMgr settings mgrInit pre).pending = some t0 →
      (∃ e ∈ pre, isAcquireEvent e = true ∧ t0 < eventTime e) →
      (mgrStep settings (runMgr settings mgrInit pre) (MgrEvent.idleFire tf)).browser
        = (runMgr settings mgrInit pre).browser) := by
  have hchainPre : (((0 : Rat) :: pre.map eventTime).Chain' (· < ·)) := by
    have h2 : ((((0 : Rat) :: pre.map eventTime) ++ [eventTime (MgrEvent.idleFire tf)]).Chain'
        (· < ·)) := by
      simpa using hchain
    exact (List.chain'_append.mp h2).1
  obtain ⟨hwfPre, hwfFire⟩ := (wfRunB_append settings pre [MgrEvent.idleFire tf] mgrInit).mp hwf
  have hpendFire : (runMgr settings mgrInit pre).pending
      = some (tf - settings.browser_idle_shutdown_seconds) :=
    (wfRunB_cons_idleFire hwfFire).1
  constructor
  · intro ⟨hafter, hbefore⟩
    by_cases hg : (runMgr settings mgrInit pre).browser = true ∧
        (runMgr settings mgrInit pre).active_tabs = 0 ∧
        tf - (runMgr settings mgrInit pre).last_used
          ≥ settings.browser_idle_shutdown_seconds
    · exact ⟨hg.2.1, hg.2.2⟩
    · exfalso
      have : (mgrStep settings (runMgr settings mgrInit pre)
          (MgrEvent.idleFire tf)).browser = (runMgr settings mgrInit pre).browser := by
        simp only [mgrStep, if_neg hg]
      rw [this, hbefore] at hafter
      cases hafter
  · intro hpend hacq
    have ht0 : t0 = tf - settings.browser_idle_shutdown_seconds := by
      have := hpend ▸ hpendFire
      exact Option.some.inj this
    have hblocked : StopBlocked (runMgr settings mgrInit pre) t0 := by
      refine stop_blocked_invariant settings pre mgrInit 0 t0 hchainPre hwfPre
        (le_refl 0) (le_refl 0) ?_ (Or.inr hacq) hpend
      intro u hu
      cases hu
    have hg : ¬ ((runMgr settings mgrInit pre).browser = true ∧
        (runMgr settings mgrInit pre).active_tabs = 0 ∧
        tf - (runMgr settings mgrInit pre).last_used
          ≥ settings.browser_idle_shutdown_seconds) := by
      rintro ⟨hb, htabs0, helapsed⟩
      rcases hblocked with hD | hD | hD
      · have : tf - (runMgr settings mgrInit pre).last_used
            < settings.browser_idle_shutdown_seconds := by
          rw [ht0] at hD
          linarith
        linarith
      · omega
      · rw [hb] at hD
        cases hD
    simp only [mgrStep, if_neg hg]

/-- Witness for C10 at a concrete trace: the task is scheduled by the release
at time 2, a new tab is acquired at time 5, and the firing at time 12 leaves
the browser running. -/
theorem idle_shutdown_postcheck_witness :
    (runMgr setD mgrInit [MgrEvent.acquire 1 none, MgrEvent.release 2,
        MgrEvent.acquire 5 none]).pending = some 2 ∧
    (mgrStep setD (runMgr setD mgrInit [MgrEvent.acquire 1 none, MgrEvent.release 2,
        MgrEvent.acquire 5 none]) (MgrEvent.idleFire 12)).browser
      = (runMgr setD mgrInit [MgrEvent.acquire 1 none, MgrEvent.release 2,
        MgrEvent.acquire 5 none]).browser := by
  refine ⟨by decide, ?_⟩
  refine (idle_shutdown_postcheck setD [MgrEvent.acquire 1 none, MgrEvent.release 2,
    MgrEvent.acquire 5 none] 12 2 ?_
    (by norm_num +decide [wfRunB, mgrStep, mgrInit, setD])).2 (by decide)
    ⟨MgrEvent.acquire 5 none, by decide, by decide, by decide⟩
  simp [eventTime, List.chain'_cons]
  norm_num

theorem plain_flow_snd (env : Env) (payload : FetchRequest) (state : SessionState)
    (settings : Settings) :
    (plain_flow env payload state settings).2 = state := by
  unfold plain_flow
  dsimp only
  split
  · rfl
  · split
    · rfl
    · split
      · rfl
      · split
        · rfl
        · split
          · rfl
          · rename_i heq
            simp [tripleVals, unpackPair] at heq
          · rfl

/-- Claim C3: a fetch that terminates with an error (validation, navigation
failure, timeout, or internal) leaves the domain session state exactly as it
was: same cookies, same request_headers, same initialized flag.  Session
state is mutated only on successful return. -/
theorem fetch_error_preserves_state (env : Env) (payload : FetchRequest)
    (state : SessionState) (settings : Settings) (e : FlowErr)
    (h : (fetch_endpoint env payload state settings).1 = Except.error e) :
    (fetch_endpoint env payload state settings).2 = state := by
  unfold fetch_endpoint at h ⊢
  by_cases hinit : state.initialized = false
  · rw [if_pos hinit] at h ⊢
    cases hb : browser_flow env payload state settings none with
    | error e2 => simp [hb]
    | ok r =>
      rw [hb] at h
      simp at h
  · rw [if_neg hinit] at h ⊢
    rcases hp : plain_flow env payload state settings with ⟨res, st⟩
    have hst : st = state := by
      have h2 := plain_flow_snd env payload state settings
      rw [hp] at h2
      exact h2
    rw [hp] at h
    cases res with
    | error e2 => simpa using hst
    | ok r =>
      simp at h

/-- Witness for C3: with a failing tab acquisition the fetch errors and the
session state is untouched. -/
theorem fetch_error_preserves_state_witness :
    (fetch_endpoint envFail req1 ({} : SessionState) setD).1 =
      Except.error (FlowErr.internal "browser start failed") ∧
    (fetch_endpoint envFail req1 ({} : SessionState) setD).2 = ({} : SessionState) :=
  ⟨rfl, fetch_error_preserves_state envFail req1 {} setD
    (FlowErr.internal "browser start failed") rfl⟩

/-- Claim C1 (code bug): at a warm fetch whose plain GET succeeds, with the
wait selector present in the body and no blocking selector, plain_flow does
not return the PageResult the specification describes: the assignment of the
three-element tuple returned by evaluate_plain_html to two targets raises
ValueError, surfaced as an internal error, before any result is built. -/
theorem plain_flow_warm_raises_value_error :
    (plain_flow envOk req1 stateWarm setD).1 =
      Except.error (FlowErr.internal "ValueError: too many values to unpack (expected 2)") ∧
    (plain_flow envOk req1 stateWarm setD).2 = stateWarm ∧
    evaluate_plain_html envOk.sel respOk.text req1.wait_for_element
      req1.browser_on_elements = Except.ok (true, none, none) := by
  refine ⟨rfl, rfl, ?_⟩
  rfl

/-- Claim C4 counterexample: with no wait selector provided the selector
wait is still performed, with the absent selector passed through: the waits
issued are the ready-state wait and then a selector wait on none. -/
theorem selector_wait_runs_without_selector :
    reqNoWait.wait_for_element = none ∧
    (await_rendered_html tabEnvOk reqNoWait.wait_for_element reqNoWait setD).1 =
      [WaitStep.readyState "complete" (max 10 20),
       WaitStep.selectorWait none 10] := by
  exact ⟨rfl, rfl⟩

/-- Claim C4 (amended): the ready-state wait uses timeout
max(wait_timeout, ready_state_timeout) and its expiry is a 504 with detail
naming the ready state; afterwards the selector wait always runs (with the
possibly-absent selector passed through) with timeout wait_timeout, and its
expiry is a 504 with detail naming wait_for_element. -/
theorem await_rendered_html_timeout_spec (tab : BrowserEnv) (payload : FetchRequest)
    (settings : Settings) :
    (tab.ready_in_time (max payload.wait_timeout settings.ready_state_timeout) = false →
      await_rendered_html tab payload.wait_for_element payload settings =
        ([WaitStep.readyState settings.ready_state_target
            (max payload.wait_timeout settings.ready_state_timeout)],
         Except.error (FlowErr.http 504 "Timed out waiting for ready state"))) ∧
    (tab.ready_in_time (max payload.wait_timeout settings.ready_state_timeout) = true →
      (await_rendered_html tab payload.wait_for_element payload settings).1 =
        [WaitStep.readyState settings.ready_state_target
          (max payload.wait_timeout settings.ready_state_timeout),
         WaitStep.selectorWait payload.wait_for_element payload.wait_timeout] ∧
      (tab.selector_in_time payload.wait_for_element payload.wait_timeout = false →
        (await_rendered_html tab payload.wait_for_element payload settings).2 =
          Except.error (FlowErr.http 504 "Timed out waiting for wait_for_element"))) := by
  constructor
  · intro h
    simp [await_rendered_html, h]
  · intro h
    constructor
    · by_cases hs : tab.selector_in_time payload.wait_for_element payload.wait_timeout <;>
        simp [await_rendered_html, h, hs]
    · intro hs
      simp [await_rendered_html, h, hs]

/-- Witness for the amended C4: a never-ready tab yields the ready-state 504
after the single ready wait; a ready tab with an expiring selector wait
yields the wait_for_element 504. -/
theorem await_rendered_html_timeout_witness :
    await_rendered_html tabReadyTimeout reqNoWait.wait_for_element reqNoWait setD =
      ([WaitStep.readyState setD.ready_state_target
          (max reqNoWait.wait_timeout setD.ready_state_timeout)],
       Except.error (FlowErr.http 504 "Timed out waiting for ready state")) ∧
    (await_rendered_html tabSelectorTimeout reqNoWait.wait_for_element reqNoWait setD).2 =
      Except.error (FlowErr.http 504 "Timed out waiting for wait_for_element") :=
  ⟨(await_rendered_html_timeout_spec tabReadyTimeout reqNoWait setD).1 rfl,
   ((await_rendered_html_timeout_spec tabSelectorTimeout reqNoWait setD).2 rfl).2 rfl⟩

/-- Claim C5 counterexample: with an uninitialized session the fetch takes
the browser pipeline, performs no selector validation, and succeeds although
the wait selector is syntactically invalid: no 400 is returned. -/
theorem invalid_selector_browser_path_no_400 :
    envOk.sel.valid "##bad" = false ∧
    (fetch_endpoint envOk reqBad ({} : SessionState) setD).1.isOk = true := by
  exact ⟨rfl, rfl⟩

theorem plain_flow_fst_of_eval_error (env : Env) (payload : FetchRequest)
    (state : SessionState) (settings : Settings) (stored : List (String × String))
    (response : PlainResponse) (e : FlowErr)
    (hstored : state.request_headers = some stored)
    (hne : stored ≠ [])
    (hget : env.http_get payload.url (sanitize_headers stored)
      (cookies_for_request state.cookies) = some response)
    (heval : evaluate_plain_html env.sel response.text payload.wait_for_element
      payload.browser_on_elements = Except.error e) :
    (plain_flow env payload state settings).1 = Except.error e := by
  unfold plain_flow
  rw [hstored]
  dsimp only
  rw [if_neg hne]
  rw [hget]
  dsimp only
  rw [heval]

theorem fetch_fst_of_plain_error (env : Env) (payload : FetchRequest)
    (state : SessionState) (settings : Settings) (e : FlowErr)
    (hinit : state.initialized = true)
    (hplain : (plain_flow env payload state settings).1 = Except.error e) :
    (fetch_endpoint env payload state settings).1 = Except.error e := by
  unfold fetch_endpoint
  rw [hinit, if_neg (by decide : ¬ (true = false))]
  rcases hp : plain_flow env payload state settings with ⟨res, st⟩
  rw [hp] at hplain
  dsimp only at hplain
  subst hplain
  rfl

/-- Claim C5 (amended): a syntactically invalid CSS selector yields the 400
naming the offending field only on the plain evaluation path, that is, when
the session is initialized with stored headers and the plain GET succeeded;
the browser path performs no selector validation. -/
theorem invalid_selector_400_on_plain_path (env : Env) (payload : FetchRequest)
    (state : SessionState) (settings : Settings) (stored : List (String × String))
    (response : PlainResponse)
    (hinit : state.initialized = true)
    (hstored : state.request_headers = some stored)
    (hne : stored ≠ [])
    (hget : env.http_get payload.url (sanitize_headers stored)
      (cookies_for_request state.cookies) = some response) :
    (∀ w, payload.wait_for_element = some w → w ≠ "" → env.sel.valid w = false →
      (fetch_endpoint env payload state settings).1 =
        Except.error (FlowErr.http 400
          ("Invalid CSS selector for wait_for_element: " ++ w))) ∧
    (∀ s rest, payload.wait_for_element = none →
      payload.browser_on_elements = s :: rest → env.sel.valid s = false →
      (fetch_endpoint env payload state settings).1 =
        Except.error (FlowErr.http 400
          ("Invalid CSS selector for browser_on_elements: " ++ s))) := by
  constructor
  · intro w hw hwne hvalid
    refine fetch_fst_of_plain_error env payload state settings _ hinit
      (plain_flow_fst_of_eval_error env payload state settings stored response _
        hstored hne hget ?_)
    unfold evaluate_plain_html
    rw [hw]
    dsimp only
    rw [if_neg hwne]
    unfold selector_exists
    rw [hvalid]
    rw [if_neg (by decide : ¬ (false = true))]
    rfl
  · intro s rest hw hbo hvalid
    refine fetch_fst_of_plain_error env payload state settings _ hinit
      (plain_flow_fst_of_eval_error env payload state settings stored response _
        hstored hne hget ?_)
    unfold evaluate_plain_html
    rw [hw, hbo]
    dsimp only
    unfold firstMatchingSelector
    unfold selector_exists
    rw [hvalid]
    rw [if_neg (by decide : ¬ (false = true))]
    rfl

/-- Witness for the amended C5 at concrete warm fetches: an invalid wait
selector and an invalid block-list selector each yield 400 naming their
field. -/
theorem invalid_selector_400_witness :
    (fetch_endpoint envOk reqBad stateWarm setD).1 =
      Except.error (FlowErr.http 400
        ("Invalid CSS selector for wait_for_element: " ++ "##bad")) ∧
    (fetch_endpoint envOk reqBadBlock stateWarm setD).1 =
      Except.error (FlowErr.http 400
        ("Invalid CSS selector for browser_on_elements: " ++ "##bad")) :=
  ⟨(invalid_selector_400_on_plain_path envOk reqBad stateWarm setD
      [("user-agent", "UA/1")] respOk rfl rfl (by decide) rfl).1 "##bad" rfl
      (by decide) rfl,
   (invalid_selector_400_on_plain_path envOk reqBadBlock stateWarm setD
      [("user-agent", "UA/1")] respOk rfl rfl (by decide) rfl).2 "##bad" [] rfl
      rfl rfl⟩

theorem runStates_head (settings : Settings) (s : SessionState)
    (l : List (Env × FetchRequest)) :
    (runStates settings s l).head? = some s := by
  cases l <;> rfl

theorem fetch_initialized_mono (env : Env) (payload : FetchRequest)
    (s : SessionState) (settings : Settings) (h : s.initialized = true) :
    ((fetch_endpoint env payload s settings).2).initialized = true := by
  unfold fetch_endpoint
  rw [h, if_neg (by decide : ¬ (true = false))]
  rcases hp : plain_flow env payload s settings with ⟨res, st⟩
  have hst : st = s := by
    have h2 := plain_flow_snd env payload s settings
    rw [hp] at h2
    exact h2
  cases res with
  | error e =>
    dsimp only
    rw [hst]
    exact h
  | ok r =>
    dsimp only
    rw [hst]
    exact h

theorem fetch_uninit_flip (env : Env) (payload : FetchRequest) (s : SessionState)
    (settings : Settings) (h : s.initialized = false) :
    ((((fetch_endpoint env payload s settings).2).initialized = true) ↔
      (fetch_endpoint env payload s settings).1.isOk = true) ∧
    (fetch_endpoint env payload s settings).1.isOk =
      (browser_flow env payload s settings none).isOk := by
  unfold fetch_endpoint
  rw [if_pos h]
  cases hb : browser_flow env payload s settings none with
  | error e =>
    simp [h]
    exact ⟨rfl, rfl⟩
  | ok r =>
    simp
    exact ⟨rfl, rfl⟩

/-- Claim C6: along any run of fetches against one domain the initialized
flag never returns to false once true (consecutive states are monotone), and
a step taken from an uninitialized state sets initialized to true exactly
when that fetch succeeded; such a step always goes through the browser
pipeline, so the one transition happens at the first successful browser
render. -/
theorem initialized_once_run (settings : Settings) (inputs : List (Env × FetchRequest))
    (s0 : SessionState) :
    (runStates settings s0 inputs).Chain'
      (fun a b => a.initialized = true → b.initialized = true) ∧
    (∀ (pre : List (Env × FetchRequest)) (p : Env × FetchRequest)
        (rest : List (Env × FetchRequest)),
      inputs = pre ++ p :: rest →
      (List.foldl (runStep settings) s0 pre).initialized = false →
      ((((fetch_endpoint p.1 p.2 (List.foldl (runStep settings) s0 pre) settings).2).initialized
          = true)
        ↔ (fetch_endpoint p.1 p.2 (List.foldl (runStep settings) s0 pre) settings).1.isOk
          = true) ∧
      (fetch_endpoint p.1 p.2 (List.foldl (runStep settings) s0 pre) settings).1.isOk
        = (browser_flow p.1 p.2 (List.foldl (runStep settings) s0 pre) settings
            none).isOk) := by
  constructor
  · induction inputs generalizing s0 with
    | nil => simp [runStates]
    | cons p rest ih =>
      show List.Chain' _ (s0 :: runStates settings (runStep settings s0 p) rest)
      refine List.chain'_cons'.mpr ⟨?_, ih (runStep settings s0 p)⟩
      intro b hb
      rw [runStates_head] at hb
      have hb2 : b = runStep settings s0 p := (Option.some.inj hb).symm
      subst hb2
      exact fetch_initialized_mono p.1 p.2 s0 settings
  · intro pre p rest _ hinit
    exact fetch_uninit_flip p.1 p.2 _ settings hinit

/-- Witness for C6: a failing first fetch leaves the session uninitialized;
the second, successful, browser fetch flips initialized exactly because it
returned ok. -/
theorem initialized_once_run_witness :
    (List.foldl (runStep setD) ({} : SessionState) [(envFail, req1)]).initialized
      = false ∧
    ((((fetch_endpoint envOk req1
          (List.foldl (runStep setD) ({} : SessionState) [(envFail, req1)]) setD).2).initialized
        = true)
      ↔ (fetch_endpoint envOk req1
          (List.foldl (runStep setD) ({} : SessionState) [(envFail, req1)]) setD).1.isOk
        = true) := by
  refine ⟨rfl, ?_⟩
  exact ((initialized_once_run setD [(envFail, req1), (envOk, req1)] {}).2
    [(envFail, req1)] (envOk, req1) [] rfl rfl).1

theorem browser_flow_used_browser (env : Env) (payload : FetchRequest)
    (state : SessionState) (settings : Settings) (snapshot : Option PlainSnapshot)
    (r : PageResult)
    (h : browser_flow env payload state settings snapshot = Except.ok r) :
    r.used_browser = true := by
  unfold browser_flow at h
  dsimp only at h
  split at h
  · simp at h
  · split at h
    · split at h
      · simp at h
      · split at h
        · simp at h
        · split at h
          · simp at h
          · split at h
            · simp at h
            · rw [Except.ok.injEq] at h
              rw [← h]
    · split at h
      · simp at h
      · split at h
        · simp at h
        · rw [Except.ok.injEq] at h
          rw [← h]

/-- Claim C7 counterexample: a live capture whose Document response carries a
request id with no recorded Document request produces an empty
request-header mapping, and the endpoint stores it: after this successful
browser fetch the session is initialized while request_headers is the empty
mapping, not a mapping with at least one entry. -/
theorem capture_headers_can_be_empty :
    capture_browser_navigation 1
        [NetEvent.responseReceived 7 true 1 200 [("server", "nginx")]] =
      some { status_code := 200, headers := [("server", "nginx")],
             request_headers := [] } ∧
    ((fetch_endpoint envNoReq req1 ({} : SessionState) setD).2).initialized = true ∧
    ((fetch_endpoint envNoReq req1 ({} : SessionState) setD).2).request_headers
      = some [] := by
  exact ⟨rfl, rfl, rfl⟩

/-- Claim C7 (amended): request_headers is non-absent, though possibly empty,
whenever initialized is true: every fetch preserves this, because a result
that used the browser always writes some captured mapping back, and other
outcomes leave the stored headers alone. -/
theorem initialized_implies_headers_present (env : Env) (payload : FetchRequest)
    (state : SessionState) (settings : Settings)
    (hpre : state.initialized = true → state.request_headers.isSome = true) :
    ((fetch_endpoint env payload state settings).2).initialized = true →
    ((fetch_endpoint env payload state settings).2).request_headers.isSome = true := by
  unfold fetch_endpoint
  by_cases hinit : state.initialized = false
  · rw [if_pos hinit]
    cases hb : browser_flow env payload state settings none with
    | error e =>
      intro h2
      exact hpre h2
    | ok r =>
      intro _
      have hub : r.used_browser = true :=
        browser_flow_used_browser env payload state settings none r hb
      dsimp only
      rw [hub]
      simp
  · rw [if_neg hinit]
    have hinitT : state.initialized = true := by
      revert hinit
      cases state.initialized <;> simp
    rcases hp : plain_flow env payload state settings with ⟨res, st⟩
    have hst : st = state := by
      have h2 := plain_flow_snd env payload state settings
      rw [hp] at h2
      exact h2
    cases res with
    | error e =>
      intro _
      dsimp only
      rw [hst]
      exact hpre hinitT
    | ok r =>
      intro _
      dsimp only
      by_cases hub : r.used_browser = true
      · rw [hub]
        simp
      · have hub2 : r.used_browser = false := by
          revert hub
          cases r.used_browser <;> simp
        rw [hub2, if_neg (by decide : ¬ (false = true)), hst]
        exact hpre hinitT

/-- Witness for the amended C7: after a successful cold browser fetch the
state is initialized and the stored request headers are present. -/
theorem initialized_implies_headers_present_witness :
    ((fetch_endpoint envOk req1 ({} : SessionState) setD).2).request_headers.isSome
      = true :=
  initialized_implies_headers_present envOk req1 {} setD
    (fun h => by cases h) rfl

end Alita

